import Mathlib

/-! # Retro Snake: the game-state machine of `main.cpp`

A shallow embedding of the snake / food / game logic of `src/main.cpp`
(`ElementInDeque`, `Food`, `Snake`, `Game`, `keyboardControls`) together with
theorems about it.

Modelling conventions.

* `Vector2` holds two `float`s in the source.  Every coordinate the program ever
  stores is a small whole number (literals, sums of whole numbers, values of
  `GetRandomValue`), on which `float` arithmetic is exact and on which raymath's
  `Vector2Equals` coincides with coordinate-wise equality.  Cells are therefore
  pairs of `Int`, as in the data model of the specification.
* `std::deque<Vector2>` is a `List Vector2`, front of the deque first.
* The raylib collaborators are explicit: the random generator is a fixed stream
  `rand : Nat → Nat` of raw values read at `World.cursor`; played sounds are
  appended to `World.played`; the keys pressed in a frame are a `Keys` record.
* `int score` is an `Int`: signed overflow is undefined in C++, and a score is
  bounded by the number of grid cells.
* The only loop that may run forever is the rejection loop of
  `Food::GenerateRandomPosition`.  It takes a `fuel` bound on the number of
  re-draws and answers `none` when the bound is exhausted.  `none` is also the
  answer where the source has no defined behaviour (`body[0]` or `pop_front`
  on an empty deque).
-/

namespace RetroSnake

/-! ## Cells -/

/-- Grid cell or direction: raylib's `Vector2`, restricted to whole coordinates. -/
structure Vector2 where
  x : Int
  y : Int
deriving DecidableEq, Repr

/-- Component-wise sum: raymath's `Vector2Add`. -/
def Vector2Add (v1 v2 : Vector2) : Vector2 :=
  { x := v1.x + v2.x, y := v1.y + v2.y }

/-- Coordinate equality: raymath's `Vector2Equals` on whole coordinates. -/
def Vector2Equals (p q : Vector2) : Bool :=
  decide (p.x = q.x) && decide (p.y = q.y)

/-- Side of the square grid: `int cellCount = 25;` (main.cpp line 14). -/
def cellCount : Int := 25

/-- Linear search of `snakeBody` for `element` (main.cpp lines 29-36). -/
def ElementInDeque (element : Vector2) : List Vector2 → Bool
  | [] => false
  | c :: rest => if Vector2Equals element c then true else ElementInDeque element rest

/-! ## External collaborators -/

/-- The two sounds the game plays. -/
inductive Sound where
  | eatSound
  | wallSound
deriving DecidableEq, Repr

/-- State of the collaborators: how many raw random values were consumed and
which sounds were played, oldest first. -/
structure World where
  cursor : Nat
  played : List Sound
deriving DecidableEq, Repr

/-- One call of raylib's `GetRandomValue(min, max)`: the next raw value of the
stream reduced into the inclusive range, bounds swapped when given in the wrong
order. -/
def GetRandomValue (rand : Nat → Nat) (min max : Int) (w : World) : Int × World :=
  let lo := if min > max then max else min
  let hi := if min > max then min else max
  (lo + (rand w.cursor : Int) % (hi - lo + 1), { w with cursor := w.cursor + 1 })

/-- One call of raylib's `PlaySound`. -/
def PlaySound (s : Sound) (w : World) : World :=
  { w with played := w.played ++ [s] }

/-- Keys reported by `IsKeyPressed` during one frame. -/
structure Keys where
  up : Bool
  down : Bool
  left : Bool
  right : Bool
deriving DecidableEq, Repr

/-! ## Food -/

/-- The food: its grid position (the texture handle plays no role in the logic). -/
structure Food where
  position : Vector2
deriving DecidableEq, Repr

/-- A random cell of the grid: x is drawn first, then y (main.cpp lines 65-69). -/
def Food.GenerateRandomCell (rand : Nat → Nat) (w : World) : Vector2 × World :=
  let rx := GetRandomValue rand 0 (cellCount - 1) w
  let ry := GetRandomValue rand 0 (cellCount - 1) rx.2
  ({ x := rx.1, y := ry.1 }, ry.2)

/-- The `while` loop of `GenerateRandomPosition` (main.cpp lines 74-77), entered
with the current candidate `position`; `fuel` bounds the number of re-draws. -/
def Food.GenerateRandomPosition.loop (rand : Nat → Nat) (snakeBody : List Vector2) :
    Nat → Vector2 → World → Option (Vector2 × World)
  | fuel, position, w =>
    if ElementInDeque position snakeBody then
      match fuel with
      | 0 => none
      | n + 1 =>
        let r := Food.GenerateRandomCell rand w
        Food.GenerateRandomPosition.loop rand snakeBody n r.1 r.2
    else some (position, w)

/-- Rejection sampling of a cell outside `snakeBody` (main.cpp lines 71-79). -/
def Food.GenerateRandomPosition (rand : Nat → Nat) (fuel : Nat) (snakeBody : List Vector2)
    (w : World) : Option (Vector2 × World) :=
  let r := Food.GenerateRandomCell rand w
  Food.GenerateRandomPosition.loop rand snakeBody fuel r.1 r.2

/-! ## Snake -/

/-- The snake: body (head first), direction, and the pending-growth flag. -/
structure Snake where
  body : List Vector2
  direction : Vector2
  addSegment : Bool
deriving DecidableEq, Repr

/-- The body every new or reset snake has (main.cpp lines 89 and 120). -/
def Snake.initialBody : List Vector2 := [⟨6, 9⟩, ⟨5, 9⟩, ⟨4, 9⟩]

/-- A freshly constructed snake (main.cpp lines 89-91). -/
def Snake.new : Snake :=
  { body := Snake.initialBody, direction := ⟨1, 0⟩, addSegment := false }

/-- Advance by one cell (main.cpp lines 109-117): push the new head, then either
clear the growth flag or pop the tail.  `body[0]` needs a non-empty body. -/
def Snake.Update (s : Snake) : Option Snake :=
  match s.body with
  | [] => none
  | head :: _ =>
    let pushed := Vector2Add head s.direction :: s.body
    if s.addSegment then
      some { s with body := pushed, addSegment := false }
    else
      some { s with body := pushed.dropLast }

/-- Restore body and direction (main.cpp lines 119-122); the flag is not assigned. -/
def Snake.Reset (s : Snake) : Snake :=
  { s with body := Snake.initialBody, direction := ⟨1, 0⟩ }

/-! ## Game -/

/-- The game: snake, food, running flag and score (sound handles omitted). -/
structure Game where
  snake : Snake
  food : Food
  running : Bool
  score : Int
deriving DecidableEq, Repr

/-- Construction of the game (main.cpp lines 128-131): a new snake and food placed
off its body. -/
def Game.new (rand : Nat → Nat) (fuel : Nat) (w : World) : Option (Game × World) :=
  match Food.GenerateRandomPosition rand fuel Snake.new.body w with
  | none => none
  | some (p, w1) =>
    some ({ snake := Snake.new, food := { position := p }, running := true, score := 0 }, w1)

/-- End of a run (main.cpp lines 190-197). -/
def Game.GameOver (rand : Nat → Nat) (fuel : Nat) (g : Game) (w : World) :
    Option (Game × World) :=
  let snake := g.snake.Reset
  match Food.GenerateRandomPosition rand fuel snake.body w with
  | none => none
  | some (p, w1) =>
    some ({ snake := snake, food := { position := p }, running := false, score := 0 },
      PlaySound Sound.wallSound w1)

/-- Head on the food (main.cpp lines 160-168). -/
def Game.CheckCollisionWithFood (rand : Nat → Nat) (fuel : Nat) (g : Game) (w : World) :
    Option (Game × World) :=
  match g.snake.body with
  | [] => none
  | head :: _ =>
    if Vector2Equals head g.food.position then
      match Food.GenerateRandomPosition rand fuel g.snake.body w with
      | none => none
      | some (p, w1) =>
        some ({ g with food := { position := p },
                       snake := { g.snake with addSegment := true },
                       score := g.score + 1 },
          PlaySound Sound.eatSound w1)
    else some (g, w)

/-- Head one step outside the grid (main.cpp lines 172-182): the x test, then the
y test on whatever snake the x test left behind. -/
def Game.CheckCollisionWithEdges (rand : Nat → Nat) (fuel : Nat) (g : Game) (w : World) :
    Option (Game × World) :=
  match g.snake.body with
  | [] => none
  | head :: _ =>
    let afterX :=
      if head.x = cellCount ∨ head.x = -1 then Game.GameOver rand fuel g w else some (g, w)
    match afterX with
    | none => none
    | some (g1, w1) =>
      match g1.snake.body with
      | [] => none
      | head1 :: _ =>
        if head1.y = cellCount ∨ head1.y = -1 then Game.GameOver rand fuel g1 w1
        else some (g1, w1)

/-- Head on another body cell (main.cpp lines 183-189). -/
def Game.CheckCollisionWithTail (rand : Nat → Nat) (fuel : Nat) (g : Game) (w : World) :
    Option (Game × World) :=
  match g.snake.body with
  | [] => none
  | head :: headlessBody =>
    if ElementInDeque head headlessBody then Game.GameOver rand fuel g w else some (g, w)

/-- One tick (main.cpp lines 150-157). -/
def Game.Update (rand : Nat → Nat) (fuel : Nat) (g : Game) (w : World) :
    Option (Game × World) :=
  if g.running then
    match g.snake.Update with
    | none => none
    | some s =>
      match Game.CheckCollisionWithFood rand fuel { g with snake := s } w with
      | none => none
      | some (g1, w1) =>
        match Game.CheckCollisionWithEdges rand fuel g1 w1 with
        | none => none
        | some (g2, w2) => Game.CheckCollisionWithTail rand fuel g2 w2
  else some (g, w)

/-- Input handling of one frame (main.cpp lines 207-227). -/
def keyboardControls (keys : Keys) (g : Game) : Game :=
  if keys.up ∧ g.snake.direction.y ≠ 1 then
    { g with snake := { g.snake with direction := ⟨0, -1⟩ }, running := true }
  else if keys.down ∧ g.snake.direction.y ≠ -1 then
    { g with snake := { g.snake with direction := ⟨0, 1⟩ }, running := true }
  else if keys.left ∧ g.snake.direction.x ≠ 1 then
    { g with snake := { g.snake with direction := ⟨-1, 0⟩ }, running := true }
  else if keys.right ∧ g.snake.direction.x ≠ -1 then
    { g with snake := { g.snake with direction := ⟨1, 0⟩ }, running := true }
  else g

/-! ## Keys as the input handler sees them -/

/-- The four direction keys, in the order in which `keyboardControls` tests them. -/
inductive Key where
  | up
  | down
  | left
  | right
deriving DecidableEq, Repr

/-- Whether a key is reported as pressed in the frame. -/
def Keys.pressed (keys : Keys) : Key → Bool
  | Key.up => keys.up
  | Key.down => keys.down
  | Key.left => keys.left
  | Key.right => keys.right

/-- Direction assigned by the branch of a key (main.cpp lines 209, 214, 219, 224). -/
def Key.unit : Key → Vector2
  | Key.up => ⟨0, -1⟩
  | Key.down => ⟨0, 1⟩
  | Key.left => ⟨-1, 0⟩
  | Key.right => ⟨1, 0⟩

/-- The guard of a key fails at direction `d` (main.cpp lines 208, 213, 218, 223). -/
def Key.rejected (d : Vector2) : Key → Prop
  | Key.up => d.y = 1
  | Key.down => d.y = -1
  | Key.left => d.x = 1
  | Key.right => d.x = -1

instance (d : Vector2) (k : Key) : Decidable (k.rejected d) := by
  cases k <;> unfold Key.rejected <;> infer_instance

/-- Position of a key in the `if` / `else if` chain. -/
def Key.rank : Key → Nat
  | Key.up => 0
  | Key.down => 1
  | Key.left => 2
  | Key.right => 3

/-- The branch of key `k` is the one taken: `k` is pressed, its guard passes, and no
key tested before it is pressed with a passing guard. -/
def Accepted (keys : Keys) (d : Vector2) (k : Key) : Prop :=
  keys.pressed k = true ∧ ¬ k.rejected d ∧
    ∀ k2 : Key, k2.rank < k.rank → ¬ (keys.pressed k2 = true ∧ ¬ k2.rejected d)

/-! ## Sample states -/

/-- Scenario of the specification: initial snake heading right, food at (7,9). -/
def scenarioEat : Game :=
  { snake := Snake.new, food := { position := ⟨7, 9⟩ }, running := true, score := 0 }

/-- Scenario of the specification: head at (24,9) heading right, score 5. -/
def scenarioEdge : Game :=
  { snake := { body := [⟨24, 9⟩, ⟨23, 9⟩, ⟨22, 9⟩], direction := ⟨1, 0⟩, addSegment := false },
    food := { position := ⟨3, 3⟩ }, running := true, score := 5 }

/-- A snake about to bite itself: heading down from (5,5) onto its own cell (5,6). -/
def scenarioBite : Game :=
  { snake := { body := [⟨5, 5⟩, ⟨6, 5⟩, ⟨6, 6⟩, ⟨5, 6⟩, ⟨4, 6⟩], direction := ⟨0, 1⟩,
               addSegment := false },
    food := { position := ⟨3, 3⟩ }, running := true, score := 2 }

/-- A state whose body after the next `Snake::Update` is `[(5,5),(5,6),(5,7),(5,6)]`:
two non-head cells coincide, the head is on no other cell. -/
def scenarioOverlap : Game :=
  { snake := { body := [⟨5, 6⟩, ⟨5, 7⟩, ⟨5, 6⟩, ⟨4, 6⟩], direction := ⟨0, -1⟩,
               addSegment := false },
    food := { position := ⟨3, 3⟩ }, running := true, score := 2 }

/-- The game one tick after the eat scenario: growth pending, food at (0,0). -/
def scenarioGrowing : Game :=
  { snake := { body := [⟨7, 9⟩, ⟨6, 9⟩, ⟨5, 9⟩], direction := ⟨1, 0⟩, addSegment := true },
    food := { position := ⟨0, 0⟩ }, running := true, score := 1 }

/-- The game constructed when the generator only delivers zeros: food at (0,0). -/
def scenarioStart : Game :=
  { snake := Snake.new, food := { position := ⟨0, 0⟩ }, running := true, score := 0 }

/-- The game two ticks after the eat scenario: the growth has happened. -/
def scenarioGrown : Game :=
  { snake := { body := [⟨8, 9⟩, ⟨7, 9⟩, ⟨6, 9⟩, ⟨5, 9⟩], direction := ⟨1, 0⟩,
               addSegment := false },
    food := { position := ⟨0, 0⟩ }, running := true, score := 1 }

/-- A generator that delivers the cell (7,9) first and zeros afterwards. -/
def sampleStream : Nat → Nat :=
  fun i => [7, 9].getD i 0

/-- A stopped game just after a reset, food at (0,0). -/
def scenarioStopped : Game :=
  { snake := Snake.new, food := { position := ⟨0, 0⟩ }, running := false, score := 0 }

/-! ## Auxiliary notions used in the statements -/

/-- The k-th cell that `GenerateRandomCell` delivers when drawing starts at
cursor position `c`. -/
def sampledCell (rand : Nat → Nat) (c k : Nat) : Vector2 :=
  (Food.GenerateRandomCell rand { cursor := c + 2 * k, played := [] }).1

/-- Cell inside the grid: both coordinates in `[0, cellCount - 1]`. -/
def InGrid (p : Vector2) : Prop :=
  0 ≤ p.x ∧ p.x ≤ cellCount - 1 ∧ 0 ≤ p.y ∧ p.y ≤ cellCount - 1

instance (p : Vector2) : Decidable (InGrid p) := by
  unfold InGrid; infer_instance

/-- Cell one step outside the grid in x or in y: the coordinates tested by
`CheckCollisionWithEdges`. -/
def OnEdge (p : Vector2) : Prop :=
  p.x = cellCount ∨ p.x = -1 ∨ p.y = cellCount ∨ p.y = -1

instance (p : Vector2) : Decidable (OnEdge p) := by
  unfold OnEdge; infer_instance

/-- From every cursor position the generator delivers, within `fuel + 1` draws, a
cell outside `occupied`. -/
def Productive (rand : Nat → Nat) (fuel : Nat) (occupied : List Vector2) : Prop :=
  ∀ c, ∃ k, k ≤ fuel ∧ ElementInDeque (sampledCell rand c k) occupied = false

/-- One of the four unit vectors. -/
def UnitVector (d : Vector2) : Prop :=
  d = ⟨1, 0⟩ ∨ d = ⟨-1, 0⟩ ∨ d = ⟨0, 1⟩ ∨ d = ⟨0, -1⟩

instance (d : Vector2) : Decidable (UnitVector d) := by
  unfold UnitVector; infer_instance

/-- Two cells at Manhattan distance exactly 1. -/
def Adjacent (p q : Vector2) : Prop :=
  |p.x - q.x| + |p.y - q.y| = 1

instance (p q : Vector2) : Decidable (Adjacent p q) := by
  unfold Adjacent; infer_instance

/-- All cells of the grid, column by column. -/
def gridCells : List Vector2 :=
  (List.range cellCount.toNat).flatMap fun (x : Nat) =>
    (List.range cellCount.toNat).map fun (y : Nat) => ({ x := (x : Int), y := (y : Int) } : Vector2)

/-- Number of grid cells that occur in the occupied list. -/
def coveredCells (occupied : List Vector2) : Nat :=
  (gridCells.filter fun p => ElementInDeque p occupied).length

/-- Sounds played between the collaborator states `w` and `w2`. -/
def playedSince (w w2 : World) : List Sound :=
  w2.played.drop w.played.length

/-- Shape of the snake: a body, a unit direction, consecutive cells adjacent. -/
def BodyShape (g : Game) : Prop :=
  g.snake.body ≠ [] ∧ UnitVector g.snake.direction ∧ g.snake.body.Chain' Adjacent

/-- The food lies inside the grid and on no body cell. -/
def FoodOff (g : Game) : Prop :=
  InGrid g.food.position ∧ g.food.position ∉ g.snake.body

/-- Body length plus pending growth equals three plus the score. -/
def ScoreCounts (g : Game) : Prop :=
  (g.snake.body.length : Int) + (if g.snake.addSegment = true then 1 else 0) = 3 + g.score

/-! ## Runs of the game -/

/-- The input frames handled between two ticks, oldest first. -/
def keyboardFrames : List Keys → Game → Game
  | [], g => g
  | keys :: more, g => keyboardFrames more (keyboardControls keys g)

/-- States the main loop can be in between two steps: the constructed game, and
whatever follows it by returned ticks and input frames in any interleaving. -/
inductive Reachable (rand : Nat → Nat) (fuel : Nat) : Game → World → Prop where
  | start (w0 : World) (g : Game) (w : World) :
      Game.new rand fuel w0 = some (g, w) → Reachable rand fuel g w
  | tick (g : Game) (w : World) (g2 : Game) (w2 : World) :
      Reachable rand fuel g w → Game.Update rand fuel g w = some (g2, w2) →
      Reachable rand fuel g2 w2
  | frame (g : Game) (w : World) (keys : Keys) :
      Reachable rand fuel g w → Reachable rand fuel (keyboardControls keys g) w

/-- The tick eats: after `Snake::Update` the head is on the food. -/
def EatsOnTick (g : Game) : Prop :=
  ∃ s1, g.snake.Update = some s1 ∧ s1.body.head? = some g.food.position

/-- A returned tick of a running game without eat event and without `GameOver`. -/
def QuietTick (rand : Nat → Nat) (fuel : Nat) (g : Game) (w : World) (g2 : Game)
    (w2 : World) : Prop :=
  g.running = true ∧ ¬ EatsOnTick g ∧ Game.Update rand fuel g w = some (g2, w2) ∧
    g2.running = true

/-- A run of `n` quiet ticks, with input frames in between in any number. -/
inductive QuietRun (rand : Nat → Nat) (fuel : Nat) :
    Nat → Game → World → Game → World → Prop where
  | done (g : Game) (w : World) : QuietRun rand fuel 0 g w g w
  | frame (n : Nat) (keys : Keys) (g : Game) (w : World) (g2 : Game) (w2 : World) :
      QuietRun rand fuel n (keyboardControls keys g) w g2 w2 → QuietRun rand fuel n g w g2 w2
  | tick (n : Nat) (g : Game) (w : World) (g1 : Game) (w1 : World) (g2 : Game) (w2 : World) :
      QuietTick rand fuel g w g1 w1 → QuietRun rand fuel n g1 w1 g2 w2 →
      QuietRun rand fuel (n + 1) g w g2 w2

/-! ## The tick with the food check elsewhere

These two variants are not in the source; they serve to state that the position of
the food check among the three checks is immaterial. -/

/-- The tick of `Game::Update` with the food check after the edge and tail checks. -/
def Game.UpdateFoodLast (rand : Nat → Nat) (fuel : Nat) (g : Game) (w : World) :
    Option (Game × World) :=
  if g.running then
    match g.snake.Update with
    | none => none
    | some s =>
      match Game.CheckCollisionWithEdges rand fuel { g with snake := s } w with
      | none => none
      | some (g1, w1) =>
        match Game.CheckCollisionWithTail rand fuel g1 w1 with
        | none => none
        | some (g2, w2) => Game.CheckCollisionWithFood rand fuel g2 w2
  else some (g, w)

/-- The tick of `Game::Update` with the food check between the edge and tail checks. -/
def Game.UpdateFoodMiddle (rand : Nat → Nat) (fuel : Nat) (g : Game) (w : World) :
    Option (Game × World) :=
  if g.running then
    match g.snake.Update with
    | none => none
    | some s =>
      match Game.CheckCollisionWithEdges rand fuel { g with snake := s } w with
      | none => none
      | some (g1, w1) =>
        match Game.CheckCollisionWithFood rand fuel g1 w1 with
        | none => none
        | some (g2, w2) => Game.CheckCollisionWithTail rand fuel g2 w2
  else some (g, w)

/-! ## Basic facts -/

theorem Vector2Equals_iff (p q : Vector2) : Vector2Equals p q = true ↔ p = q := by
  cases p; cases q; simp [Vector2Equals]

theorem ElementInDeque_iff_mem (e : Vector2) (l : List Vector2) :
    ElementInDeque e l = true ↔ e ∈ l := by
  induction l with
  | nil => simp [ElementInDeque]
  | cons c rest ih =>
    by_cases h : Vector2Equals e c = true
    · have hec := (Vector2Equals_iff e c).1 h
      simp only [ElementInDeque, h, if_true, true_iff]
      rw [hec]
      exact List.mem_cons_self _ _
    · have hne : e ≠ c := fun he => h ((Vector2Equals_iff e c).2 he)
      simp [ElementInDeque, h, ih, hne]

theorem ElementInDeque_eq_false_iff (e : Vector2) (l : List Vector2) :
    ElementInDeque e l = false ↔ e ∉ l := by
  rw [← ElementInDeque_iff_mem]; simp

theorem GenerateRandomCell_eq (rand : Nat → Nat) (w : World) :
    Food.GenerateRandomCell rand w
      = (sampledCell rand w.cursor 0, { w with cursor := w.cursor + 2 }) := by
  simp [Food.GenerateRandomCell, sampledCell, GetRandomValue]

theorem sampledCell_shift (rand : Nat → Nat) (c k : Nat) :
    sampledCell rand (c + 2) k = sampledCell rand c (k + 1) := by
  have h : c + 2 + 2 * k = c + 2 * (k + 1) := by ring
  simp [sampledCell, h]

theorem sampledCell_inGrid (rand : Nat → Nat) (c k : Nat) : InGrid (sampledCell rand c k) := by
  simp only [InGrid, sampledCell, Food.GenerateRandomCell, GetRandomValue, cellCount]
  norm_num
  omega

theorem GenerateRandomPosition_zero (rand : Nat → Nat) (occ : List Vector2) (w : World) :
    Food.GenerateRandomPosition rand 0 occ w
      = if ElementInDeque (sampledCell rand w.cursor 0) occ then none
        else some (sampledCell rand w.cursor 0, { w with cursor := w.cursor + 2 }) := by
  simp [Food.GenerateRandomPosition, Food.GenerateRandomPosition.loop, GenerateRandomCell_eq]

theorem GenerateRandomPosition_succ (rand : Nat → Nat) (n : Nat) (occ : List Vector2)
    (w : World) :
    Food.GenerateRandomPosition rand (n + 1) occ w
      = if ElementInDeque (sampledCell rand w.cursor 0) occ then
          Food.GenerateRandomPosition rand n occ { w with cursor := w.cursor + 2 }
        else some (sampledCell rand w.cursor 0, { w with cursor := w.cursor + 2 }) := by
  simp only [Food.GenerateRandomPosition, GenerateRandomCell_eq]
  rw [Food.GenerateRandomPosition.loop]
  simp only [GenerateRandomCell_eq]

/-- The placement loop returns exactly the first drawn cell that is free, provided
that cell is among the first `fuel + 1` draws, and leaves the cursor behind it. -/
theorem GenerateRandomPosition_eq_some_iff (rand : Nat → Nat) (fuel : Nat)
    (occ : List Vector2) (w : World) (p : Vector2) (w' : World) :
    Food.GenerateRandomPosition rand fuel occ w = some (p, w') ↔
      ∃ k, k ≤ fuel ∧
        (∀ j, j < k → ElementInDeque (sampledCell rand w.cursor j) occ = true) ∧
        ElementInDeque (sampledCell rand w.cursor k) occ = false ∧
        p = sampledCell rand w.cursor k ∧
        w' = { w with cursor := w.cursor + 2 * (k + 1) } := by
  induction fuel generalizing w with
  | zero =>
    rw [GenerateRandomPosition_zero]
    constructor
    · intro h
      by_cases hin : ElementInDeque (sampledCell rand w.cursor 0) occ = true
      · simp [hin] at h
      · simp only [hin] at h
        simp only [Bool.false_eq_true, if_false, Option.some.injEq, Prod.mk.injEq] at h
        refine ⟨0, le_refl _, fun j hj => absurd hj (Nat.not_lt_zero j), by simpa using hin,
          h.1.symm, h.2.symm⟩
    · rintro ⟨k, hk, _, hfree, hp, hw⟩
      obtain rfl : k = 0 := Nat.le_zero.1 hk
      simp [hfree, hp, hw]
  | succ n ih =>
    rw [GenerateRandomPosition_succ]
    by_cases hin : ElementInDeque (sampledCell rand w.cursor 0) occ = true
    · simp only [hin, if_true]
      rw [ih]
      constructor
      · rintro ⟨k, hk, hbusy, hfree, hp, hw⟩
        refine ⟨k + 1, Nat.succ_le_succ hk, ?_, ?_, ?_, ?_⟩
        · intro j hj
          cases j with
          | zero => exact hin
          | succ j =>
            have := hbusy j (Nat.lt_of_succ_lt_succ hj)
            simpa [sampledCell_shift] using this
        · simpa [sampledCell_shift] using hfree
        · simpa [sampledCell_shift] using hp
        · rw [hw]
          have : w.cursor + 2 + 2 * (k + 1) = w.cursor + 2 * (k + 1 + 1) := by ring
          simp [this]
      · rintro ⟨k, hk, hbusy, hfree, hp, hw⟩
        cases k with
        | zero => rw [hin] at hfree; exact absurd hfree (by decide)
        | succ k =>
          refine ⟨k, Nat.le_of_succ_le_succ hk, ?_, ?_, ?_, ?_⟩
          · intro j hj
            have := hbusy (j + 1) (Nat.succ_lt_succ hj)
            simpa [sampledCell_shift] using this
          · simpa [sampledCell_shift] using hfree
          · simpa [sampledCell_shift] using hp
          · rw [hw]
            have : w.cursor + 2 + 2 * (k + 1) = w.cursor + 2 * (k + 1 + 1) := by ring
            simp [this]
    · simp only [hin]
      simp only [Bool.false_eq_true, if_false, Option.some.injEq, Prod.mk.injEq]
      constructor
      · rintro ⟨hp, hw⟩
        exact ⟨0, Nat.zero_le _, fun j hj => absurd hj (Nat.not_lt_zero j), by simpa using hin,
          hp.symm, hw.symm⟩
      · rintro ⟨k, hk, hbusy, hfree, hp, hw⟩
        cases k with
        | zero => exact ⟨hp.symm, hw.symm⟩
        | succ k => exact absurd (hbusy 0 (Nat.succ_pos k)) hin

/-- What a returned placement looks like. -/
theorem GenerateRandomPosition_post (rand : Nat → Nat) (fuel : Nat) (occ : List Vector2)
    (w : World) (p : Vector2) (w' : World)
    (h : Food.GenerateRandomPosition rand fuel occ w = some (p, w')) :
    ElementInDeque p occ = false ∧ InGrid p ∧ w'.played = w.played ∧ w.cursor < w'.cursor := by
  obtain ⟨k, _, _, hfree, hp, hw⟩ := (GenerateRandomPosition_eq_some_iff _ _ _ _ _ _).1 h
  subst hp; subst hw
  exact ⟨hfree, sampledCell_inGrid _ _ _, rfl, by simp⟩

/-- The placement loop returns exactly when a free cell is among the first
`fuel + 1` draws. -/
theorem GenerateRandomPosition_returns_iff (rand : Nat → Nat) (fuel : Nat)
    (occ : List Vector2) (w : World) :
    (∃ r, Food.GenerateRandomPosition rand fuel occ w = some r) ↔
      ∃ k, k ≤ fuel ∧ ElementInDeque (sampledCell rand w.cursor k) occ = false := by
  constructor
  · rintro ⟨⟨p, w'⟩, h⟩
    obtain ⟨k, hk, _, hfree, _, _⟩ := (GenerateRandomPosition_eq_some_iff _ _ _ _ _ _).1 h
    exact ⟨k, hk, hfree⟩
  · rintro ⟨k, hk, hfree⟩
    classical
    have hex : ∃ m, ElementInDeque (sampledCell rand w.cursor m) occ = false := ⟨k, hfree⟩
    have hspec := Nat.find_spec hex
    have hle : Nat.find hex ≤ fuel := le_trans (Nat.find_min' hex hfree) hk
    refine ⟨(sampledCell rand w.cursor (Nat.find hex),
      { w with cursor := w.cursor + 2 * (Nat.find hex + 1) }), ?_⟩
    rw [GenerateRandomPosition_eq_some_iff]
    refine ⟨Nat.find hex, hle, ?_, hspec, rfl, rfl⟩
    intro j hj
    have := Nat.find_min hex hj
    simpa using this

/-- A productive generator makes every placement return. -/
theorem GenerateRandomPosition_returns (rand : Nat → Nat) (fuel : Nat) (occ : List Vector2)
    (hprod : Productive rand fuel occ) (w : World) :
    ∃ r, Food.GenerateRandomPosition rand fuel occ w = some r :=
  (GenerateRandomPosition_returns_iff rand fuel occ w).2 (hprod w.cursor)

/-! ## The pieces of a tick -/

theorem GameOver_eq_some_iff (rand : Nat → Nat) (fuel : Nat) (g : Game) (w : World)
    (g' : Game) (w' : World) :
    Game.GameOver rand fuel g w = some (g', w') ↔
      ∃ p w1, Food.GenerateRandomPosition rand fuel Snake.initialBody w = some (p, w1) ∧
        g' = { snake := g.snake.Reset, food := { position := p }, running := false, score := 0 } ∧
        w' = PlaySound Sound.wallSound w1 := by
  unfold Game.GameOver
  simp only [Snake.Reset]
  cases h : Food.GenerateRandomPosition rand fuel Snake.initialBody w with
  | none => simp
  | some r =>
    obtain ⟨p, w1⟩ := r
    simp only [Option.some.injEq, Prod.mk.injEq]
    constructor
    · rintro ⟨hg, hw⟩
      exact ⟨p, w1, ⟨rfl, rfl⟩, hg.symm, hw.symm⟩
    · rintro ⟨p', w1', ⟨hp, hw1⟩, hg, hw⟩
      subst hp; subst hw1
      exact ⟨hg.symm, hw.symm⟩

/-- State after a returned `GameOver`. -/
theorem GameOver_post (rand : Nat → Nat) (fuel : Nat) (g : Game) (w : World)
    (g' : Game) (w' : World) (h : Game.GameOver rand fuel g w = some (g', w')) :
    g'.snake.body = Snake.initialBody ∧ g'.snake.direction = ⟨1, 0⟩ ∧
      g'.snake.addSegment = g.snake.addSegment ∧ g'.score = 0 ∧ g'.running = false ∧
      ElementInDeque g'.food.position Snake.initialBody = false ∧ InGrid g'.food.position ∧
      w'.played = w.played ++ [Sound.wallSound] ∧ w.cursor < w'.cursor := by
  obtain ⟨p, w1, hgen, hg, hw⟩ := (GameOver_eq_some_iff _ _ _ _ _ _).1 h
  obtain ⟨hfree, hgrid, hplayed, hcur⟩ := GenerateRandomPosition_post _ _ _ _ _ _ hgen
  subst hg; subst hw
  simp [Snake.Reset, PlaySound, hfree, hgrid, hplayed, hcur]

theorem GameOver_returns_iff (rand : Nat → Nat) (fuel : Nat) (g : Game) (w : World) :
    (∃ r, Game.GameOver rand fuel g w = some r) ↔
      ∃ r, Food.GenerateRandomPosition rand fuel Snake.initialBody w = some r := by
  unfold Game.GameOver
  simp only [Snake.Reset]
  cases Food.GenerateRandomPosition rand fuel Snake.initialBody w with
  | none => simp
  | some r => simp

/-- What `Snake::Update` does to a non-empty body. -/
theorem Snake_Update_cons (s : Snake) (head : Vector2) (tail : List Vector2)
    (hb : s.body = head :: tail) :
    s.Update = some
      { body := Vector2Add head s.direction ::
          (if s.addSegment then head :: tail else (head :: tail).dropLast),
        direction := s.direction, addSegment := false } := by
  obtain ⟨b, d, p⟩ := s
  simp only at hb
  subst hb
  cases p <;> simp [Snake.Update, List.dropLast]

/-- The edge test followed by the tail test amounts to one `GameOver` when the
head is on an edge coordinate or on another body cell, and to nothing otherwise:
a reset snake passes the remaining tests. -/
theorem checks_collapse (rand : Nat → Nat) (fuel : Nat) (g1 : Game) (w1 : World)
    (nh : Vector2) (rest : List Vector2) (hb : g1.snake.body = nh :: rest) :
    (match Game.CheckCollisionWithEdges rand fuel g1 w1 with
      | none => none
      | some (g2, w2) => Game.CheckCollisionWithTail rand fuel g2 w2)
      = if OnEdge nh ∨ ElementInDeque nh rest = true then Game.GameOver rand fuel g1 w1
        else some (g1, w1) := by
  have hreset : ∀ (g0 : Game) (w0 : World) (g2 : Game) (w2 : World),
      Game.GameOver rand fuel g0 w0 = some (g2, w2) →
      g2.snake.body = ⟨6, 9⟩ :: [⟨5, 9⟩, ⟨4, 9⟩] := by
    intro g0 w0 g2 w2 h
    exact (GameOver_post _ _ _ _ _ _ h).1
  by_cases hx : nh.x = cellCount ∨ nh.x = -1
  · have hcond : OnEdge nh ∨ ElementInDeque nh rest = true := by
      unfold OnEdge; tauto
    rw [if_pos hcond]
    unfold Game.CheckCollisionWithEdges
    simp only [hb, if_pos hx]
    cases hgo : Game.GameOver rand fuel g1 w1 with
    | none => rfl
    | some r =>
      obtain ⟨g2, w2⟩ := r
      have hb2 := hreset _ _ _ _ hgo
      simp [hb2, cellCount, Game.CheckCollisionWithTail, ElementInDeque, Vector2Equals]
  · unfold Game.CheckCollisionWithEdges
    simp only [hb, if_neg hx]
    by_cases hy : nh.y = cellCount ∨ nh.y = -1
    · have hcond : OnEdge nh ∨ ElementInDeque nh rest = true := by
        unfold OnEdge; tauto
      rw [if_pos hcond, if_pos hy]
      cases hgo : Game.GameOver rand fuel g1 w1 with
      | none => rfl
      | some r =>
        obtain ⟨g2, w2⟩ := r
        have hb2 := hreset _ _ _ _ hgo
        simp [hb2, Game.CheckCollisionWithTail, ElementInDeque, Vector2Equals]
    · rw [if_neg hy]
      simp only [Game.CheckCollisionWithTail, hb]
      by_cases ht : ElementInDeque nh rest = true
      · have hcond : OnEdge nh ∨ ElementInDeque nh rest = true := Or.inr ht
        rw [if_pos hcond, if_pos ht]
      · have hcond : ¬ (OnEdge nh ∨ ElementInDeque nh rest = true) := by
          unfold OnEdge; tauto
        rw [if_neg hcond, if_neg ht]

/-- A tick of a running game, written out: `nh :: rest` is the body after
`Snake::Update`. -/
theorem Update_running_eq (rand : Nat → Nat) (fuel : Nat) (g : Game) (w : World)
    (head : Vector2) (tail : List Vector2) (nh : Vector2) (rest : List Vector2)
    (hrun : g.running = true) (hb : g.snake.body = head :: tail)
    (hnh : nh = Vector2Add head g.snake.direction)
    (hrest : rest = if g.snake.addSegment then head :: tail else (head :: tail).dropLast) :
    Game.Update rand fuel g w =
      if Vector2Equals nh g.food.position then
        match Food.GenerateRandomPosition rand fuel (nh :: rest) w with
        | none => none
        | some (p, w1) =>
          if OnEdge nh ∨ ElementInDeque nh rest = true then
            Game.GameOver rand fuel
              { snake := { body := nh :: rest, direction := g.snake.direction,
                           addSegment := true },
                food := { position := p }, running := true, score := g.score + 1 }
              (PlaySound Sound.eatSound w1)
          else
            some ({ snake := { body := nh :: rest, direction := g.snake.direction,
                               addSegment := true },
                    food := { position := p }, running := true, score := g.score + 1 },
              PlaySound Sound.eatSound w1)
      else if OnEdge nh ∨ ElementInDeque nh rest = true then
        Game.GameOver rand fuel
          { g with snake := { body := nh :: rest, direction := g.snake.direction,
                              addSegment := false } } w
      else
        some ({ g with snake := { body := nh :: rest, direction := g.snake.direction,
                                  addSegment := false } }, w) := by
  have hadv := Snake_Update_cons g.snake head tail hb
  rw [← hnh, ← hrest] at hadv
  unfold Game.Update
  simp only [hrun, if_true, hadv]
  by_cases heat : Vector2Equals nh g.food.position = true
  · simp only [Game.CheckCollisionWithFood, heat, if_true]
    cases hgen : Food.GenerateRandomPosition rand fuel (nh :: rest) w with
    | none => rfl
    | some r =>
      obtain ⟨p, w1⟩ := r
      simp only []
      rw [checks_collapse rand fuel _ _ nh rest rfl]
  · simp only [Game.CheckCollisionWithFood, heat]
    simp only [Bool.false_eq_true, if_false]
    rw [checks_collapse rand fuel _ _ nh rest rfl]

/-- A tick of a running game with a non-empty body returns when the generator is
productive for the reset body and, on an eat tick, for the advanced body. -/
theorem Update_returns (rand : Nat → Nat) (fuel : Nat) (g : Game) (w : World)
    (head : Vector2) (tail : List Vector2)
    (hrun : g.running = true) (hb : g.snake.body = head :: tail)
    (hinit : Productive rand fuel Snake.initialBody)
    (hfood : Vector2Add head g.snake.direction = g.food.position →
      ∀ s1, g.snake.Update = some s1 → Productive rand fuel s1.body) :
    ∃ r, Game.Update rand fuel g w = some r := by
  have hadv := Snake_Update_cons g.snake head tail hb
  have hEq := Update_running_eq rand fuel g w head tail _ _ hrun hb rfl rfl
  generalize (if g.snake.addSegment = true then head :: tail else (head :: tail).dropLast)
    = rest at hadv hEq
  generalize Vector2Add head g.snake.direction = nh at hadv hEq hfood
  rw [hEq]
  by_cases hhit : OnEdge nh ∨ ElementInDeque nh rest = true
  · by_cases heat : Vector2Equals nh g.food.position = true
    · have hprod := hfood ((Vector2Equals_iff _ _).1 heat) _ hadv
      obtain ⟨⟨p, w1⟩, hgen⟩ := GenerateRandomPosition_returns rand fuel _ hprod w
      simp only [heat, if_true, hgen, if_pos hhit]
      exact (GameOver_returns_iff _ _ _ _).2 (GenerateRandomPosition_returns rand fuel _ hinit _)
    · simp only [heat, Bool.false_eq_true, if_false, if_pos hhit]
      exact (GameOver_returns_iff _ _ _ _).2 (GenerateRandomPosition_returns rand fuel _ hinit _)
  · by_cases heat : Vector2Equals nh g.food.position = true
    · have hprod := hfood ((Vector2Equals_iff _ _).1 heat) _ hadv
      obtain ⟨⟨p, w1⟩, hgen⟩ := GenerateRandomPosition_returns rand fuel _ hprod w
      simp only [heat, if_true, hgen, if_neg hhit]
      exact ⟨_, rfl⟩
    · simp only [heat, Bool.false_eq_true, if_false, if_neg hhit]
      exact ⟨_, rfl⟩

/-- Outcome of a returned tick of a running game, by cases on whether the advanced
head `nh` hits (edge coordinate or another body cell) and whether it is on the food. -/
theorem Update_outcome (rand : Nat → Nat) (fuel : Nat) (g : Game) (w : World)
    (head : Vector2) (tail : List Vector2) (nh : Vector2) (rest : List Vector2)
    (hrun : g.running = true) (hb : g.snake.body = head :: tail)
    (hnh : nh = Vector2Add head g.snake.direction)
    (hrest : rest = if g.snake.addSegment then head :: tail else (head :: tail).dropLast)
    (g' : Game) (w' : World) (h : Game.Update rand fuel g w = some (g', w')) :
    (OnEdge nh ∨ ElementInDeque nh rest = true →
      g'.snake.body = Snake.initialBody ∧ g'.snake.direction = ⟨1, 0⟩ ∧
      g'.snake.addSegment = Vector2Equals nh g.food.position ∧
      g'.score = 0 ∧ g'.running = false ∧
      ElementInDeque g'.food.position Snake.initialBody = false ∧ InGrid g'.food.position ∧
      w'.played = w.played ++
        (if Vector2Equals nh g.food.position then [Sound.eatSound, Sound.wallSound]
         else [Sound.wallSound])) ∧
    (¬ (OnEdge nh ∨ ElementInDeque nh rest = true) →
      g'.snake.body = nh :: rest ∧ g'.snake.direction = g.snake.direction ∧
      g'.running = true ∧
      (Vector2Equals nh g.food.position = true →
        g'.score = g.score + 1 ∧ g'.snake.addSegment = true ∧
        ElementInDeque g'.food.position (nh :: rest) = false ∧ InGrid g'.food.position ∧
        w'.played = w.played ++ [Sound.eatSound]) ∧
      (Vector2Equals nh g.food.position = false →
        g'.score = g.score ∧ g'.snake.addSegment = false ∧ g'.food = g.food ∧ w' = w)) := by
  rw [Update_running_eq rand fuel g w head tail nh rest hrun hb hnh hrest] at h
  by_cases heat : Vector2Equals nh g.food.position = true
  · simp only [heat, if_true] at h
    cases hgen : Food.GenerateRandomPosition rand fuel (nh :: rest) w with
    | none => simp [hgen] at h
    | some r =>
      obtain ⟨p, w1⟩ := r
      simp only [hgen] at h
      obtain ⟨hfree, hgrid, hplayed, _⟩ := GenerateRandomPosition_post _ _ _ _ _ _ hgen
      by_cases hhit : OnEdge nh ∨ ElementInDeque nh rest = true
      · rw [if_pos hhit] at h
        obtain ⟨h1, h2, h3, h4, h5, h6, h7, h8, _⟩ := GameOver_post _ _ _ _ _ _ h
        refine ⟨fun _ => ⟨h1, h2, ?_, h4, h5, h6, h7, ?_⟩, fun hn => absurd hhit hn⟩
        · rw [h3, heat]
        · rw [h8]; simp [PlaySound, hplayed, heat]
      · rw [if_neg hhit] at h
        simp only [Option.some.injEq, Prod.mk.injEq] at h
        obtain ⟨hg, hw⟩ := h
        subst hg; subst hw
        refine ⟨fun hp => absurd hp hhit, fun _ => ⟨rfl, rfl, rfl, ?_, ?_⟩⟩
        · intro _
          exact ⟨rfl, rfl, hfree, hgrid, by simp [PlaySound, hplayed]⟩
        · intro hf; rw [heat] at hf; exact absurd hf (by decide)
  · have heat' : Vector2Equals nh g.food.position = false := by simpa using heat
    simp only [heat', Bool.false_eq_true, if_false] at h
    by_cases hhit : OnEdge nh ∨ ElementInDeque nh rest = true
    · rw [if_pos hhit] at h
      obtain ⟨h1, h2, h3, h4, h5, h6, h7, h8, _⟩ := GameOver_post _ _ _ _ _ _ h
      refine ⟨fun _ => ⟨h1, h2, ?_, h4, h5, h6, h7, ?_⟩, fun hn => absurd hhit hn⟩
      · rw [h3, heat']
      · rw [h8]; simp [heat']
    · rw [if_neg hhit] at h
      simp only [Option.some.injEq, Prod.mk.injEq] at h
      obtain ⟨hg, hw⟩ := h
      subst hg; subst hw
      refine ⟨fun hp => absurd hp hhit, fun _ => ⟨rfl, rfl, hrun, ?_, ?_⟩⟩
      · intro ht; exact absurd ht heat
      · intro _; exact ⟨rfl, rfl, rfl, rfl⟩

/-- The constant stream of zeros is productive for every list without the cell (0,0). -/
theorem Productive_zero (fuel : Nat) (occ : List Vector2)
    (h : ElementInDeque ⟨0, 0⟩ occ = false) : Productive (fun _ => 0) fuel occ := by
  intro c
  refine ⟨0, Nat.zero_le _, ?_⟩
  have : sampledCell (fun _ => 0) c 0 = ⟨0, 0⟩ := by
    simp [sampledCell, Food.GenerateRandomCell, GetRandomValue, cellCount]
  rw [this]; exact h

/-! ## Snake.Update against its reference description -/

/-- C1: for a snake with non-empty body `b`, direction `d` and growth flag `p`,
`Snake::Update` returns the snake whose body is `b[0] + d` followed by `b` when `p`
is set (one cell longer) and `b[0] + d` followed by `b` without its last cell
otherwise (same length); the flag is cleared and the direction is kept. -/
theorem Snake_Update_reference (b : List Vector2) (d : Vector2) (p : Bool) (hb : b ≠ []) :
    ∃ s', Snake.Update { body := b, direction := d, addSegment := p } = some s' ∧
      s'.body = (if p then Vector2Add (b.head hb) d :: b
                 else Vector2Add (b.head hb) d :: b.dropLast) ∧
      s'.body.length = (if p then b.length + 1 else b.length) ∧
      s'.addSegment = false ∧ s'.direction = d := by
  cases b with
  | nil => exact absurd rfl hb
  | cons head tail =>
    refine ⟨_, Snake_Update_cons _ head tail rfl, ?_, ?_, rfl, rfl⟩
    · cases p <;> simp [List.dropLast]
    · cases p <;> simp

/-- Instance of C1 on the initial body with the growth flag set: the body becomes
`[(7,9),(6,9),(5,9),(4,9)]`. -/
theorem Snake_Update_reference_witness :
    ∃ s', Snake.Update { body := [⟨6, 9⟩, ⟨5, 9⟩, ⟨4, 9⟩], direction := ⟨1, 0⟩,
                         addSegment := true } = some s' ∧
      s'.body = [⟨7, 9⟩, ⟨6, 9⟩, ⟨5, 9⟩, ⟨4, 9⟩] ∧
      s'.body.length = 4 ∧ s'.addSegment = false ∧ s'.direction = ⟨1, 0⟩ :=
  Snake_Update_reference [⟨6, 9⟩, ⟨5, 9⟩, ⟨4, 9⟩] ⟨1, 0⟩ true (by decide)

/-! ## Food placement -/

/-- C6: `GenerateRandomPosition` returns exactly the first drawn cell that is not in
the occupied list (it returns with `fuel` re-draws allowed precisely when such a cell
is among the first `fuel + 1` draws); hence a returned cell is never in the occupied
list and both its coordinates lie in `[0, cellCount - 1]`. -/
theorem GenerateRandomPosition_first_free (rand : Nat → Nat) (fuel : Nat)
    (occupied : List Vector2) (w : World) :
    (∀ p w', Food.GenerateRandomPosition rand fuel occupied w = some (p, w') ↔
      ∃ k, k ≤ fuel ∧
        (∀ j, j < k → ElementInDeque (sampledCell rand w.cursor j) occupied = true) ∧
        ElementInDeque (sampledCell rand w.cursor k) occupied = false ∧
        p = sampledCell rand w.cursor k ∧
        w' = { w with cursor := w.cursor + 2 * (k + 1) }) ∧
    (∀ p w', Food.GenerateRandomPosition rand fuel occupied w = some (p, w') →
      ElementInDeque p occupied = false ∧ p ∉ occupied ∧
      0 ≤ p.x ∧ p.x ≤ cellCount - 1 ∧ 0 ≤ p.y ∧ p.y ≤ cellCount - 1) := by
  refine ⟨fun p w' => GenerateRandomPosition_eq_some_iff rand fuel occupied w p w', ?_⟩
  intro p w' h
  obtain ⟨hfree, hgrid, _, _⟩ := GenerateRandomPosition_post _ _ _ _ _ _ h
  exact ⟨hfree, (ElementInDeque_eq_false_iff _ _).1 hfree, hgrid⟩

/-- Instance of C6: with the draws (6,9), (5,9), (3,3), ... and the initial body
occupied, the third cell is returned and six raw values are consumed. -/
theorem GenerateRandomPosition_first_free_witness :
    Food.GenerateRandomPosition (fun i => [6, 9, 5, 9, 3, 3].getD i 0) 5 Snake.initialBody
        { cursor := 0, played := [] } = some (⟨3, 3⟩, { cursor := 6, played := [] }) ∧
      (ElementInDeque ⟨3, 3⟩ Snake.initialBody = false ∧ (⟨3, 3⟩ : Vector2) ∉ Snake.initialBody ∧
        (0 : Int) ≤ 3 ∧ (3 : Int) ≤ cellCount - 1 ∧ (0 : Int) ≤ 3 ∧ (3 : Int) ≤ cellCount - 1) :=
  ⟨by decide,
   (GenerateRandomPosition_first_free (fun i => [6, 9, 5, 9, 3, 3].getD i 0) 5
      Snake.initialBody { cursor := 0, played := [] }).2 ⟨3, 3⟩ { cursor := 6, played := [] }
      (by decide)⟩

/-! ## GameOver -/

/-- C5: whatever the state before, a `GameOver` whose food placement returns leaves
body `[(6,9),(5,9),(4,9)]`, direction `(1,0)`, score 0 and `running = false`, with the
new food inside the grid and off the three reset cells; the placement returns exactly
when a cell off the reset body is among the first `fuel + 1` draws. -/
theorem GameOver_postcondition (rand : Nat → Nat) (fuel : Nat) (g : Game) (w : World) :
    (∀ g' w', Game.GameOver rand fuel g w = some (g', w') →
      g'.snake.body = [⟨6, 9⟩, ⟨5, 9⟩, ⟨4, 9⟩] ∧ g'.snake.direction = ⟨1, 0⟩ ∧
      g'.score = 0 ∧ g'.running = false ∧
      InGrid g'.food.position ∧
      g'.food.position ≠ ⟨6, 9⟩ ∧ g'.food.position ≠ ⟨5, 9⟩ ∧ g'.food.position ≠ ⟨4, 9⟩) ∧
    ((∃ r, Game.GameOver rand fuel g w = some r) ↔
      ∃ k, k ≤ fuel ∧ ElementInDeque (sampledCell rand w.cursor k) Snake.initialBody = false) := by
  refine ⟨?_, ?_⟩
  · intro g' w' h
    obtain ⟨hbody, hdir, _, hscore, hrun, hfree, hgrid, _, _⟩ := GameOver_post _ _ _ _ _ _ h
    have hnot := (ElementInDeque_eq_false_iff _ _).1 hfree
    simp only [Snake.initialBody, List.mem_cons, List.mem_singleton, not_or] at hnot
    have hnil : g'.food.position ∉ ([] : List Vector2) := List.not_mem_nil _
    exact ⟨hbody, hdir, hscore, hrun, hgrid, hnot.1, hnot.2.1, by tauto⟩
  · rw [GameOver_returns_iff, GenerateRandomPosition_returns_iff]

/-- Instance of C5: from score 41 with a long body, direction `(0,-1)` and
`running = false`, the draws (5,9), (2,7) give the reset state with food at (2,7). -/
theorem GameOver_postcondition_witness :
    Game.GameOver (fun i => [5, 9, 2, 7].getD i 0) 1
        { snake := { body := [⟨3, 3⟩, ⟨3, 4⟩, ⟨3, 5⟩, ⟨3, 6⟩], direction := ⟨0, -1⟩,
                     addSegment := false },
          food := { position := ⟨10, 10⟩ }, running := false, score := 41 }
        { cursor := 0, played := [] }
      = some ({ snake := Snake.new, food := { position := ⟨2, 7⟩ }, running := false,
                score := 0 },
              { cursor := 4, played := [Sound.wallSound] }) ∧
    (Snake.new.body = [⟨6, 9⟩, ⟨5, 9⟩, ⟨4, 9⟩] ∧ Snake.new.direction = ⟨1, 0⟩ ∧
      (0 : Int) = 0 ∧ false = false ∧ InGrid ⟨2, 7⟩ ∧
      (⟨2, 7⟩ : Vector2) ≠ ⟨6, 9⟩ ∧ (⟨2, 7⟩ : Vector2) ≠ ⟨5, 9⟩ ∧ (⟨2, 7⟩ : Vector2) ≠ ⟨4, 9⟩) :=
  ⟨by decide,
   (GameOver_postcondition (fun i => [5, 9, 2, 7].getD i 0) 1
      { snake := { body := [⟨3, 3⟩, ⟨3, 4⟩, ⟨3, 5⟩, ⟨3, 6⟩], direction := ⟨0, -1⟩,
                   addSegment := false },
        food := { position := ⟨10, 10⟩ }, running := false, score := 41 }
      { cursor := 0, played := [] }).1
      { snake := Snake.new, food := { position := ⟨2, 7⟩ }, running := false, score := 0 }
      { cursor := 4, played := [Sound.wallSound] } (by decide)⟩

/-! ## Ticks -/

/-- C8: a tick of a stopped game returns at once with the game (body, direction,
growth flag, food, score, running flag) and the collaborators (random cursor, played
sounds) unchanged, whatever the fuel. -/
theorem Update_stopped_frozen (rand : Nat → Nat) (fuel : Nat) (g : Game) (w : World)
    (hstop : g.running = false) :
    Game.Update rand fuel g w = some (g, w) := by
  simp [Game.Update, hstop]

/-- Instance of C8 on a stopped game just after a reset. -/
theorem Update_stopped_frozen_witness :
    Game.Update (fun _ => 0) 0
        { snake := Snake.new, food := { position := ⟨7, 9⟩ }, running := false, score := 0 }
        { cursor := 4, played := [Sound.wallSound] }
      = some ({ snake := Snake.new, food := { position := ⟨7, 9⟩ }, running := false,
                score := 0 },
              { cursor := 4, played := [Sound.wallSound] }) :=
  Update_stopped_frozen (fun _ => 0) 0
    { snake := Snake.new, food := { position := ⟨7, 9⟩ }, running := false, score := 0 }
    { cursor := 4, played := [Sound.wallSound] } rfl

/-- C3: at a running game whose advanced head has x in {-1, cellCount} or y in
{-1, cellCount}, every returned tick ends in the reset state: body
`[(6,9),(5,9),(4,9)]`, score 0, `running = false`; and the tick does return when the
generator is productive for the bodies it has to avoid. -/
theorem Update_edge_trigger (rand : Nat → Nat) (fuel : Nat) (g : Game) (w : World)
    (head : Vector2) (tail : List Vector2)
    (hrun : g.running = true) (hb : g.snake.body = head :: tail)
    (hedge : (Vector2Add head g.snake.direction).x = -1 ∨
             (Vector2Add head g.snake.direction).x = cellCount ∨
             (Vector2Add head g.snake.direction).y = -1 ∨
             (Vector2Add head g.snake.direction).y = cellCount) :
    (∀ g' w', Game.Update rand fuel g w = some (g', w') →
      g'.snake.body = [⟨6, 9⟩, ⟨5, 9⟩, ⟨4, 9⟩] ∧ g'.score = 0 ∧ g'.running = false) ∧
    (Productive rand fuel Snake.initialBody →
      (Vector2Add head g.snake.direction = g.food.position →
        ∀ s1, g.snake.Update = some s1 → Productive rand fuel s1.body) →
      ∃ r, Game.Update rand fuel g w = some r) := by
  refine ⟨?_, fun hinit hfood => Update_returns rand fuel g w head tail hrun hb hinit hfood⟩
  intro g' w' h
  have hhit : OnEdge (Vector2Add head g.snake.direction) := by
    unfold OnEdge; tauto
  obtain ⟨h1, _, _, h4, h5, _⟩ :=
    (Update_outcome rand fuel g w head tail _ _ hrun hb rfl rfl g' w' h).1 (Or.inl hhit)
  exact ⟨h1, h4, h5⟩

/-- C2: at a running game whose advanced head is on the food and neither on an edge
coordinate nor on another cell of the advanced body `s1.body`, every returned tick
has score + 1, the growth flag set, the advanced body, and food off that body; the
following `Snake::Update` keeps the tail, so its body is one cell longer.  The tick
returns exactly when a cell off the advanced body is among the first `fuel + 1`
draws. -/
theorem Update_eat_event (rand : Nat → Nat) (fuel : Nat) (g : Game) (w : World)
    (head : Vector2) (tail : List Vector2) (s1 : Snake)
    (hrun : g.running = true) (hb : g.snake.body = head :: tail)
    (hadv : g.snake.Update = some s1)
    (heat : Vector2Add head g.snake.direction = g.food.position)
    (hnoedge : ¬ OnEdge (Vector2Add head g.snake.direction))
    (hnotail : Vector2Add head g.snake.direction ∉ s1.body.tail) :
    (∀ g' w', Game.Update rand fuel g w = some (g', w') →
      g'.score = g.score + 1 ∧ g'.snake.addSegment = true ∧ g'.snake.body = s1.body ∧
      g'.running = true ∧ g'.food.position ∉ s1.body ∧
      w'.played = w.played ++ [Sound.eatSound] ∧
      ∃ s2, g'.snake.Update = some s2 ∧
        s2.body = Vector2Add (Vector2Add head g.snake.direction) g.snake.direction :: s1.body ∧
        s2.body.length = g'.snake.body.length + 1) ∧
    ((∃ r, Game.Update rand fuel g w = some r) ↔
      ∃ k, k ≤ fuel ∧ ElementInDeque (sampledCell rand w.cursor k) s1.body = false) := by
  have hadv' := Snake_Update_cons g.snake head tail hb
  rw [hadv] at hadv'
  have hs1 := Option.some.inj hadv'
  have hEq := Update_running_eq rand fuel g w head tail _ _ hrun hb rfl rfl
  have hOut := fun g' w' h =>
    Update_outcome rand fuel g w head tail _ _ hrun hb rfl rfl g' w' h
  generalize (if g.snake.addSegment = true then head :: tail else (head :: tail).dropLast)
    = rest at hs1 hEq hOut
  generalize hnhdef : Vector2Add head g.snake.direction = nh at *
  have hbody : s1.body = nh :: rest := by rw [hs1]
  rw [hbody, List.tail_cons] at hnotail
  have hnohit : ¬ (OnEdge nh ∨ ElementInDeque nh rest = true) := by
    rintro (he | ht)
    · exact hnoedge he
    · exact hnotail ((ElementInDeque_iff_mem _ _).1 ht)
  have heq : Vector2Equals nh g.food.position = true := (Vector2Equals_iff _ _).2 heat
  refine ⟨?_, ?_⟩
  · intro g' w' h
    obtain ⟨h1, h2, h3, h4, _⟩ := (hOut g' w' h).2 hnohit
    obtain ⟨h5, h6, h7, _, h9⟩ := h4 heq
    refine ⟨h5, h6, by rw [h1, hbody], h3, ?_, h9, ?_⟩
    · rw [hbody]; exact (ElementInDeque_eq_false_iff _ _).1 h7
    · refine ⟨_, Snake_Update_cons g'.snake nh rest h1, ?_, ?_⟩
      · simp [h6, h2, hbody]
      · simp [h6, h1]
  · rw [hEq, hbody, ← GenerateRandomPosition_returns_iff]
    simp only [heq, if_true, if_neg hnohit]
    cases Food.GenerateRandomPosition rand fuel (nh :: rest) w with
    | none => simp
    | some r => simp

/-- C10: for a tick of a running game, a returned state with `running = false` has
score 0, and a returned state with `running = true` has the previous score or the
previous score + 1; the tick returns when the body is non-empty and the generator is
productive for the bodies it has to avoid. -/
theorem Update_score_reset (rand : Nat → Nat) (fuel : Nat) (g : Game) (w : World)
    (hrun : g.running = true) :
    (∀ g' w', Game.Update rand fuel g w = some (g', w') →
      (g'.running = false → g'.score = 0) ∧
      (g'.running = true → g'.score = g.score ∨ g'.score = g.score + 1)) ∧
    (g.snake.body ≠ [] → Productive rand fuel Snake.initialBody →
      (∀ s1, g.snake.Update = some s1 → Productive rand fuel s1.body) →
      ∃ r, Game.Update rand fuel g w = some r) := by
  refine ⟨?_, ?_⟩
  · intro g' w' h
    cases hbody : g.snake.body with
    | nil => simp [Game.Update, hrun, Snake.Update, hbody] at h
    | cons head tail =>
      have hOut := Update_outcome rand fuel g w head tail _ _ hrun hbody rfl rfl g' w' h
      by_cases hhit : OnEdge (Vector2Add head g.snake.direction) ∨
          ElementInDeque (Vector2Add head g.snake.direction)
            (if g.snake.addSegment = true then head :: tail else (head :: tail).dropLast) = true
      · obtain ⟨_, _, _, h4, h5, _⟩ := hOut.1 hhit
        exact ⟨fun _ => h4, fun hr => by rw [h5] at hr; exact absurd hr (by decide)⟩
      · obtain ⟨_, _, h3, h4, h5⟩ := hOut.2 hhit
        refine ⟨fun hr => by rw [h3] at hr; exact absurd hr (by decide), fun _ => ?_⟩
        cases heq : Vector2Equals (Vector2Add head g.snake.direction) g.food.position with
        | true => exact Or.inr (h4 heq).1
        | false => exact Or.inl (h5 heq).1
  · intro hne hinit hfood
    cases hbody : g.snake.body with
    | nil => exact absurd hbody hne
    | cons head tail =>
      exact Update_returns rand fuel g w head tail hrun hbody hinit (fun _ => hfood)

/-- C4, as it holds on the code: at a running game whose advanced head `nh` is not on an edge
coordinate, a returned tick has fired `GameOver` (wall sound played during the tick,
`running = false`, body reset, score 0) exactly when `nh` equals a cell of the advanced
body behind the head; when it does not, the advanced body is kept, whether or not
cells behind the head coincide with one another. -/
theorem Update_self_collision (rand : Nat → Nat) (fuel : Nat) (g : Game) (w : World)
    (head : Vector2) (tail : List Vector2) (s1 : Snake)
    (hrun : g.running = true) (hb : g.snake.body = head :: tail)
    (hadv : g.snake.Update = some s1)
    (hnoedge : ¬ OnEdge (Vector2Add head g.snake.direction)) :
    s1.body.head? = some (Vector2Add head g.snake.direction) ∧
    (∀ g' w', Game.Update rand fuel g w = some (g', w') →
      (Sound.wallSound ∈ w'.played.drop w.played.length ↔
        Vector2Add head g.snake.direction ∈ s1.body.tail) ∧
      (g'.running = false ↔ Vector2Add head g.snake.direction ∈ s1.body.tail) ∧
      (Vector2Add head g.snake.direction ∈ s1.body.tail →
        g'.snake.body = [⟨6, 9⟩, ⟨5, 9⟩, ⟨4, 9⟩] ∧ g'.score = 0) ∧
      (Vector2Add head g.snake.direction ∉ s1.body.tail →
        g'.snake.body = s1.body ∧ g'.running = true)) ∧
    (Productive rand fuel Snake.initialBody →
      (Vector2Add head g.snake.direction = g.food.position → Productive rand fuel s1.body) →
      ∃ r, Game.Update rand fuel g w = some r) := by
  have hadv' := Snake_Update_cons g.snake head tail hb
  rw [hadv] at hadv'
  have hs1 := Option.some.inj hadv'
  have hOut := fun g' w' h =>
    Update_outcome rand fuel g w head tail _ _ hrun hb rfl rfl g' w' h
  have hRet := Update_returns rand fuel g w head tail hrun hb
  generalize (if g.snake.addSegment = true then head :: tail else (head :: tail).dropLast)
    = rest at hs1 hOut
  generalize Vector2Add head g.snake.direction = nh at *
  have hbody : s1.body = nh :: rest := by rw [hs1]
  rw [hbody, List.tail_cons]
  refine ⟨rfl, ?_, ?_⟩
  · intro g' w' h
    by_cases hmem : nh ∈ rest
    · have hhit : OnEdge nh ∨ ElementInDeque nh rest = true :=
        Or.inr ((ElementInDeque_iff_mem _ _).2 hmem)
      obtain ⟨h1, _, _, h4, h5, _, _, h8⟩ := (hOut g' w' h).1 hhit
      refine ⟨?_, ?_, fun _ => ⟨h1, h4⟩, fun hn => absurd hmem hn⟩
      · rw [h8]
        cases Vector2Equals nh g.food.position <;> simp [hmem]
      · simp [h5, hmem]
    · have hnohit : ¬ (OnEdge nh ∨ ElementInDeque nh rest = true) := by
        rintro (he | ht)
        · exact hnoedge he
        · exact hmem ((ElementInDeque_iff_mem _ _).1 ht)
      obtain ⟨h1, _, h3, h4, h5⟩ := (hOut g' w' h).2 hnohit
      refine ⟨?_, ?_, fun hm => absurd hm hmem, fun _ => ⟨h1, h3⟩⟩
      · cases heq : Vector2Equals nh g.food.position with
        | true =>
          rw [(h4 heq).2.2.2.2]
          simp [hmem]
        | false =>
          rw [(h5 heq).2.2.2]
          simp [hmem]
      · simp [h3, hmem]
  · intro hinit hfood
    refine hRet hinit (fun he s hs => ?_)
    have : s = s1 := Option.some.inj (hs.symm.trans hadv)
    rw [this, hbody]; exact hfood he

/-! ## Input -/

/-- C7: when the direction `D` is one of the four unit vectors, then for every
combination of pressed keys the direction after `keyboardControls` is not `-D`; and
when the only pressed key is the one standing for `-D`, the state is unchanged. -/
theorem keyboardControls_no_reversal (keys : Keys) (g : Game)
    (hD : g.snake.direction = ⟨1, 0⟩ ∨ g.snake.direction = ⟨-1, 0⟩ ∨
          g.snake.direction = ⟨0, 1⟩ ∨ g.snake.direction = ⟨0, -1⟩) :
    (keyboardControls keys g).snake.direction
        ≠ ⟨-g.snake.direction.x, -g.snake.direction.y⟩ ∧
    (∀ k : Key, k.unit = ⟨-g.snake.direction.x, -g.snake.direction.y⟩ →
      (∀ k2 : Key, keys.pressed k2 = true ↔ k2 = k) →
      (keyboardControls keys g).snake.direction = g.snake.direction ∧
      keyboardControls keys g = g) := by
  obtain ⟨⟨b, d, f⟩, food, run, sc⟩ := g
  obtain ⟨u, dn, l, r⟩ := keys
  simp only at hD
  refine ⟨?_, ?_⟩
  · rcases hD with rfl | rfl | rfl | rfl <;>
      cases u <;> cases dn <;> cases l <;> cases r <;>
      simp [keyboardControls]
  · intro k hk hall
    have hu := hall Key.up
    have hd := hall Key.down
    have hl := hall Key.left
    have hr := hall Key.right
    simp only [Keys.pressed] at hu hd hl hr
    rcases hD with rfl | rfl | rfl | rfl <;> cases k <;>
      simp [Key.unit] at hk <;>
      simp at hu hd hl hr <;>
      simp [keyboardControls, hu, hd, hl, hr]

/-- Instance of C7: heading right with Left (alone, or together with Right)
pressed, the direction stays `(1,0)`. -/
theorem keyboardControls_no_reversal_witness :
    (keyboardControls { up := false, down := false, left := true, right := false }
        scenarioEat).snake.direction ≠ ⟨-1, -0⟩ ∧
    keyboardControls { up := false, down := false, left := true, right := false }
        scenarioEat = scenarioEat :=
  ⟨(keyboardControls_no_reversal { up := false, down := false, left := true, right := false }
      scenarioEat (Or.inl rfl)).1,
   ((keyboardControls_no_reversal { up := false, down := false, left := true, right := false }
      scenarioEat (Or.inl rfl)).2 Key.left rfl (fun k2 => by cases k2 <;> decide)).2⟩

/-- C9: `keyboardControls` never changes body, growth flag, food or score; when the
branch of a key is taken (the key is accepted) the direction becomes that key's unit
vector and `running` becomes true, whatever it was; when no key is pressed, or every
pressed key is rejected, the whole state is unchanged; and one of the two cases
always applies. -/
theorem keyboardControls_frame (keys : Keys) (g : Game) :
    ((keyboardControls keys g).snake.body = g.snake.body ∧
      (keyboardControls keys g).snake.addSegment = g.snake.addSegment ∧
      (keyboardControls keys g).food = g.food ∧
      (keyboardControls keys g).score = g.score) ∧
    (∀ k : Key, Accepted keys g.snake.direction k →
      (keyboardControls keys g).snake.direction = k.unit ∧
      (keyboardControls keys g).running = true) ∧
    ((∀ k : Key, keys.pressed k = true → k.rejected g.snake.direction) →
      keyboardControls keys g = g) ∧
    ((∀ k : Key, keys.pressed k = false) → keyboardControls keys g = g) ∧
    ((∃ k : Key, keys.pressed k = true ∧ ¬ k.rejected g.snake.direction) →
      ∃ k : Key, Accepted keys g.snake.direction k) := by
  obtain ⟨⟨b, d, f⟩, food, run, sc⟩ := g
  obtain ⟨u, dn, l, r⟩ := keys
  have hnone : (∀ k : Key, Keys.pressed ⟨u, dn, l, r⟩ k = true → k.rejected d) →
      keyboardControls ⟨u, dn, l, r⟩ ⟨⟨b, d, f⟩, food, run, sc⟩ = ⟨⟨b, d, f⟩, food, run, sc⟩ := by
    intro hall
    have hu := hall Key.up
    have hd := hall Key.down
    have hl := hall Key.left
    have hr := hall Key.right
    simp only [Keys.pressed, Key.rejected] at hu hd hl hr
    unfold keyboardControls
    rw [if_neg (fun h => h.2 (hu h.1)), if_neg (fun h => h.2 (hd h.1)),
      if_neg (fun h => h.2 (hl h.1)), if_neg (fun h => h.2 (hr h.1))]
  refine ⟨?_, ?_, hnone, ?_, ?_⟩
  · unfold keyboardControls
    split_ifs <;> exact ⟨rfl, rfl, rfl, rfl⟩
  · rintro k ⟨hp, hrej, hfirst⟩
    have hu := hfirst Key.up
    have hd := hfirst Key.down
    have hl := hfirst Key.left
    cases k <;>
      simp only [Keys.pressed, Key.rejected, Key.rank, Key.unit] at hp hrej hu hd hl ⊢
    · unfold keyboardControls
      rw [if_pos ⟨hp, hrej⟩]; exact ⟨rfl, rfl⟩
    · have hu' := hu (by decide)
      unfold keyboardControls
      rw [if_neg hu', if_pos ⟨hp, hrej⟩]; exact ⟨rfl, rfl⟩
    · have hu' := hu (by decide)
      have hd' := hd (by decide)
      unfold keyboardControls
      rw [if_neg hu', if_neg hd', if_pos ⟨hp, hrej⟩]; exact ⟨rfl, rfl⟩
    · have hu' := hu (by decide)
      have hd' := hd (by decide)
      have hl' := hl (by decide)
      unfold keyboardControls
      rw [if_neg hu', if_neg hd', if_neg hl', if_pos ⟨hp, hrej⟩]; exact ⟨rfl, rfl⟩
  · intro hall
    exact hnone (fun k hk => by rw [hall k] at hk; exact absurd hk (by decide))
  · rintro ⟨k0, hk0, hrej0⟩
    by_cases hU : Keys.pressed ⟨u, dn, l, r⟩ Key.up = true ∧ ¬ Key.up.rejected d
    · exact ⟨Key.up, hU.1, hU.2, fun k2 hlt => by cases k2 <;> simp [Key.rank] at hlt⟩
    · by_cases hDn : Keys.pressed ⟨u, dn, l, r⟩ Key.down = true ∧ ¬ Key.down.rejected d
      · refine ⟨Key.down, hDn.1, hDn.2, fun k2 hlt => ?_⟩
        cases k2 <;> simp [Key.rank] at hlt
        exact hU
      · by_cases hL : Keys.pressed ⟨u, dn, l, r⟩ Key.left = true ∧ ¬ Key.left.rejected d
        · refine ⟨Key.left, hL.1, hL.2, fun k2 hlt => ?_⟩
          cases k2 <;> simp [Key.rank] at hlt
          · exact hU
          · exact hDn
        · refine ⟨Key.right, ?_, ?_, fun k2 hlt => ?_⟩
          · cases k0
            · exact absurd ⟨hk0, hrej0⟩ hU
            · exact absurd ⟨hk0, hrej0⟩ hDn
            · exact absurd ⟨hk0, hrej0⟩ hL
            · exact hk0
          · cases k0
            · exact absurd ⟨hk0, hrej0⟩ hU
            · exact absurd ⟨hk0, hrej0⟩ hDn
            · exact absurd ⟨hk0, hrej0⟩ hL
            · exact hrej0
          · cases k2
            · exact hU
            · exact hDn
            · exact hL
            · simp [Key.rank] at hlt

/-! ## Instances on the sample states -/

/-- Instance of C3, the scenario of the specification: head (24,9) heading right
advances to (25,9); the tick ends in the reset state with score 0 and
`running = false`. -/
theorem Update_edge_trigger_witness :
    Game.Update (fun _ => 0) 0 scenarioEdge { cursor := 0, played := [] }
      = some ({ snake := Snake.new, food := { position := ⟨0, 0⟩ }, running := false,
                score := 0 },
              { cursor := 2, played := [Sound.wallSound] }) ∧
    (Snake.new.body = [⟨6, 9⟩, ⟨5, 9⟩, ⟨4, 9⟩] ∧ (0 : Int) = 0 ∧ false = false) ∧
    (∃ r, Game.Update (fun _ => 0) 0 scenarioEdge { cursor := 0, played := [] } = some r) :=
  ⟨by decide,
   (Update_edge_trigger (fun _ => 0) 0 scenarioEdge { cursor := 0, played := [] }
      ⟨24, 9⟩ [⟨23, 9⟩, ⟨22, 9⟩] rfl rfl (by decide)).1
      { snake := Snake.new, food := { position := ⟨0, 0⟩ }, running := false, score := 0 }
      { cursor := 2, played := [Sound.wallSound] } (by decide),
   (Update_edge_trigger (fun _ => 0) 0 scenarioEdge { cursor := 0, played := [] }
      ⟨24, 9⟩ [⟨23, 9⟩, ⟨22, 9⟩] rfl rfl (by decide)).2
      (Productive_zero 0 Snake.initialBody (by decide))
      (fun h => absurd h (by decide))⟩

/-- Instance of C2, the scenario of the specification: body `[(6,9),(5,9),(4,9)]`,
direction `(1,0)`, food `(7,9)`: the head moves to (7,9), the flag is set, the score
is 1, and the following `Snake::Update` gives a body of length 4. -/
theorem Update_eat_event_witness :
    Game.Update (fun _ => 0) 0 scenarioEat { cursor := 0, played := [] }
      = some ({ snake := { body := [⟨7, 9⟩, ⟨6, 9⟩, ⟨5, 9⟩], direction := ⟨1, 0⟩,
                           addSegment := true },
                food := { position := ⟨0, 0⟩ }, running := true, score := 1 },
              { cursor := 2, played := [Sound.eatSound] }) ∧
    (∃ s2, Snake.Update { body := [⟨7, 9⟩, ⟨6, 9⟩, ⟨5, 9⟩], direction := ⟨1, 0⟩,
                          addSegment := true } = some s2 ∧
      s2.body = [⟨8, 9⟩, ⟨7, 9⟩, ⟨6, 9⟩, ⟨5, 9⟩] ∧ s2.body.length = 4) :=
  ⟨by decide,
   ((Update_eat_event (fun _ => 0) 0 scenarioEat { cursor := 0, played := [] }
      ⟨6, 9⟩ [⟨5, 9⟩, ⟨4, 9⟩]
      { body := [⟨7, 9⟩, ⟨6, 9⟩, ⟨5, 9⟩], direction := ⟨1, 0⟩, addSegment := false }
      rfl rfl (by decide) (by decide) (by decide) (by decide)).1
      { snake := { body := [⟨7, 9⟩, ⟨6, 9⟩, ⟨5, 9⟩], direction := ⟨1, 0⟩, addSegment := true },
        food := { position := ⟨0, 0⟩ }, running := true, score := 1 }
      { cursor := 2, played := [Sound.eatSound] } (by decide)).2.2.2.2.2.2⟩

/-- Instance of C4: heading down from (5,5) onto the own cell (5,6), the
advanced body `[(5,6),(5,5),(6,5),(6,6),(5,6)]` has its head on another cell and the
tick ends in the reset state. -/
theorem Update_self_collision_witness :
    Game.Update (fun _ => 0) 0 scenarioBite { cursor := 0, played := [] }
      = some ({ snake := Snake.new, food := { position := ⟨0, 0⟩ }, running := false,
                score := 0 },
              { cursor := 2, played := [Sound.wallSound] }) ∧
    (false = false ↔ (⟨5, 6⟩ : Vector2) ∈ [(⟨5, 5⟩ : Vector2), ⟨6, 5⟩, ⟨6, 6⟩, ⟨5, 6⟩]) :=
  ⟨by decide,
   (((Update_self_collision (fun _ => 0) 0 scenarioBite { cursor := 0, played := [] }
      ⟨5, 5⟩ [⟨6, 5⟩, ⟨6, 6⟩, ⟨5, 6⟩, ⟨4, 6⟩]
      { body := [⟨5, 6⟩, ⟨5, 5⟩, ⟨6, 5⟩, ⟨6, 6⟩, ⟨5, 6⟩], direction := ⟨0, 1⟩,
        addSegment := false }
      rfl rfl (by decide) (by decide)).2.1
      { snake := Snake.new, food := { position := ⟨0, 0⟩ }, running := false, score := 0 }
      { cursor := 2, played := [Sound.wallSound] } (by decide)).2.1)⟩

/-- Counterexample to C4 as stated: the body after `Snake::Update` is
`[(5,5),(5,6),(5,7),(5,6)]`, the advanced head (5,5) is on no edge coordinate, and
the tick returns the advanced state unchanged otherwise: still running, score kept,
no sound played, hence no `GameOver`. -/
theorem self_overlap_without_GameOver :
    scenarioOverlap.running = true ∧
    ¬ OnEdge (Vector2Add ⟨5, 6⟩ scenarioOverlap.snake.direction) ∧
    scenarioOverlap.snake.Update
      = some { body := [⟨5, 5⟩, ⟨5, 6⟩, ⟨5, 7⟩, ⟨5, 6⟩], direction := ⟨0, -1⟩,
               addSegment := false } ∧
    Game.Update (fun _ => 0) 0 scenarioOverlap { cursor := 0, played := [] }
      = some ({ snake := { body := [⟨5, 5⟩, ⟨5, 6⟩, ⟨5, 7⟩, ⟨5, 6⟩], direction := ⟨0, -1⟩,
                           addSegment := false },
                food := { position := ⟨3, 3⟩ }, running := true, score := 2 },
              { cursor := 0, played := [] }) := by
  decide

/-- Instance of C10 on the edge scenario: score 5 before, `running = false` and
score 0 after. -/
theorem Update_score_reset_witness :
    Game.Update (fun _ => 0) 0 scenarioEdge { cursor := 0, played := [] }
      = some ({ snake := Snake.new, food := { position := ⟨0, 0⟩ }, running := false,
                score := 0 },
              { cursor := 2, played := [Sound.wallSound] }) ∧
    ((false = false → (0 : Int) = 0) ∧
      (false = true → (0 : Int) = scenarioEdge.score ∨ (0 : Int) = scenarioEdge.score + 1)) :=
  ⟨by decide,
   (Update_score_reset (fun _ => 0) 0 scenarioEdge { cursor := 0, played := [] } rfl).1
      { snake := Snake.new, food := { position := ⟨0, 0⟩ }, running := false, score := 0 }
      { cursor := 2, played := [Sound.wallSound] } (by decide)⟩

/-- Instance of C9: on the stopped game, Up is accepted (direction `(0,-1)`,
`running = true`), and Left alone, rejected at direction `(1,0)`, changes nothing. -/
theorem keyboardControls_frame_witness :
    ((keyboardControls { up := true, down := false, left := false, right := false }
        scenarioStopped).snake.direction = ⟨0, -1⟩ ∧
      (keyboardControls { up := true, down := false, left := false, right := false }
        scenarioStopped).running = true) ∧
    keyboardControls { up := false, down := false, left := true, right := false }
        scenarioStopped = scenarioStopped :=
  ⟨(keyboardControls_frame { up := true, down := false, left := false, right := false }
      scenarioStopped).2.1 Key.up
      ⟨rfl, by decide, fun k2 hlt => by cases k2 <;> simp [Key.rank] at hlt⟩,
   (keyboardControls_frame { up := false, down := false, left := true, right := false }
      scenarioStopped).2.2.1
      (fun k hk => by cases k <;> first | exact absurd hk (by decide) | decide)⟩

/-! ## More facts about ticks and frames -/

/-- Input frames leave body, growth flag, food and score alone. -/
theorem keyboardControls_keeps (keys : Keys) (g : Game) :
    (keyboardControls keys g).snake.body = g.snake.body ∧
      (keyboardControls keys g).snake.addSegment = g.snake.addSegment ∧
      (keyboardControls keys g).food = g.food ∧
      (keyboardControls keys g).score = g.score := by
  unfold keyboardControls
  split_ifs <;> exact ⟨rfl, rfl, rfl, rfl⟩

/-- A returned tick either found the game stopped or had a body to advance. -/
theorem Update_cases (rand : Nat → Nat) (fuel : Nat) (g : Game) (w : World)
    (g2 : Game) (w2 : World) (h : Game.Update rand fuel g w = some (g2, w2)) :
    (g.running = false ∧ g2 = g ∧ w2 = w) ∨
    (g.running = true ∧ ∃ head tail, g.snake.body = head :: tail) := by
  cases hrun : g.running with
  | false =>
    left
    simp [Game.Update, hrun] at h
    exact ⟨rfl, h.1.symm, h.2.symm⟩
  | true =>
    right
    refine ⟨rfl, ?_⟩
    cases hbody : g.snake.body with
    | nil => simp [Game.Update, hrun, Snake.Update, hbody] at h
    | cons head tail => exact ⟨head, tail, rfl⟩

/-- With a non-empty body, the tick eats exactly when head + direction is the food. -/
theorem EatsOnTick_iff (g : Game) (head : Vector2) (tail : List Vector2)
    (hb : g.snake.body = head :: tail) :
    EatsOnTick g ↔ Vector2Add head g.snake.direction = g.food.position := by
  have hadv := Snake_Update_cons g.snake head tail hb
  constructor
  · rintro ⟨s1, hs1, hhead⟩
    rw [hadv] at hs1
    have := Option.some.inj hs1
    subst this
    simpa using hhead
  · intro heq
    exact ⟨_, hadv, by simp [heq]⟩

/-- Food inside the grid and off the body: a head that reaches it hits nothing. -/
theorem eat_excludes_hit (g : Game) (head : Vector2) (tail : List Vector2)
    (hb : g.snake.body = head :: tail) (hgrid : InGrid g.food.position)
    (hoff : g.food.position ∉ g.snake.body)
    (heat : Vector2Add head g.snake.direction = g.food.position) :
    ¬ (OnEdge (Vector2Add head g.snake.direction) ∨
        ElementInDeque (Vector2Add head g.snake.direction)
          (if g.snake.addSegment = true then head :: tail else (head :: tail).dropLast) = true) := by
  rw [heat]
  rintro (hedge | hin)
  · unfold OnEdge at hedge
    unfold InGrid at hgrid
    simp only [cellCount] at hedge hgrid
    omega
  · have hmem := (ElementInDeque_iff_mem _ _).1 hin
    apply hoff
    rw [hb]
    split at hmem
    · exact hmem
    · exact List.mem_of_mem_dropLast hmem

/-- A quiet tick adds the pending cell, if any, and clears the flag. -/
theorem QuietTick_length (rand : Nat → Nat) (fuel : Nat) (g : Game) (w : World)
    (g2 : Game) (w2 : World) (h : QuietTick rand fuel g w g2 w2) :
    g2.snake.body.length = g.snake.body.length + (if g.snake.addSegment = true then 1 else 0) ∧
      g2.snake.addSegment = false := by
  obtain ⟨hrun, hnoeat, htick, hrun2⟩ := h
  rcases Update_cases rand fuel g w g2 w2 htick with ⟨hstop, _, _⟩ | ⟨_, head, tail, hb⟩
  · rw [hrun] at hstop; exact absurd hstop (by decide)
  · have hOut := Update_outcome rand fuel g w head tail _ _ hrun hb rfl rfl g2 w2 htick
    have hne : Vector2Equals (Vector2Add head g.snake.direction) g.food.position = false := by
      cases hv : Vector2Equals (Vector2Add head g.snake.direction) g.food.position with
      | false => rfl
      | true => exact absurd ((EatsOnTick_iff g head tail hb).2 ((Vector2Equals_iff _ _).1 hv)) hnoeat
    by_cases hhit : OnEdge (Vector2Add head g.snake.direction) ∨
        ElementInDeque (Vector2Add head g.snake.direction)
          (if g.snake.addSegment = true then head :: tail else (head :: tail).dropLast) = true
    · have := (hOut.1 hhit).2.2.2.2.1
      rw [hrun2] at this; exact absurd this (by decide)
    · obtain ⟨h1, _, _, _, h5⟩ := hOut.2 hhit
      refine ⟨?_, (h5 hne).2.1⟩
      rw [h1, hb]
      cases g.snake.addSegment <;> simp

/-- Along a quiet run the body keeps its length until the first tick, which adds the
pending cell, and keeps it from then on. -/
theorem QuietRun_length (rand : Nat → Nat) (fuel : Nat) (n : Nat) (g : Game) (w : World)
    (g2 : Game) (w2 : World) (h : QuietRun rand fuel n g w g2 w2) :
    (n = 0 → g2.snake.body.length = g.snake.body.length ∧
      g2.snake.addSegment = g.snake.addSegment) ∧
    (0 < n → g2.snake.body.length
        = g.snake.body.length + (if g.snake.addSegment = true then 1 else 0) ∧
      g2.snake.addSegment = false) := by
  induction h with
  | done g w => exact ⟨fun _ => ⟨rfl, rfl⟩, fun hn => absurd hn (Nat.lt_irrefl 0)⟩
  | frame n keys g w g2 w2 _ ih =>
    obtain ⟨hbody, hflag, _, _⟩ := keyboardControls_keeps keys g
    rw [hbody, hflag] at ih
    exact ih
  | tick n g w g1 w1 g2 w2 htick _ ih =>
    obtain ⟨hlen, hflag⟩ := QuietTick_length rand fuel g w g1 w1 htick
    refine ⟨fun hn => absurd hn (Nat.succ_ne_zero n), fun _ => ?_⟩
    rcases Nat.eq_zero_or_pos n with hn | hn
    · obtain ⟨h1, h2⟩ := ih.1 hn
      exact ⟨by rw [h1, hlen], by rw [h2, hflag]⟩
    · obtain ⟨h1, h2⟩ := ih.2 hn
      refine ⟨?_, h2⟩
      rw [h1, hlen, hflag]
      simp

/-! ## Growth -/

/-- C11, as it holds on the code: on an eat tick without `GameOver` the body length
grows only by a growth pending from before (not at all when the flag was clear); on
a following run of ticks without eat event and without `GameOver` it is one cell
longer from the first of these ticks on, and constant after it. -/
theorem growth_one_tick_after_eat (rand : Nat → Nat) (fuel : Nat) (g : Game) (w : World)
    (g1 : Game) (w1 : World)
    (hrun : g.running = true) (heat : EatsOnTick g)
    (htick : Game.Update rand fuel g w = some (g1, w1)) (hover : g1.running = true) :
    g1.snake.body.length
        = g.snake.body.length + (if g.snake.addSegment = true then 1 else 0) ∧
    (g.snake.addSegment = false → g1.snake.body.length = g.snake.body.length) ∧
    (∀ n g2 w2, QuietRun rand fuel n g1 w1 g2 w2 →
      g2.snake.body.length = g1.snake.body.length + (if n = 0 then 0 else 1)) := by
  rcases Update_cases rand fuel g w g1 w1 htick with ⟨hstop, _, _⟩ | ⟨_, head, tail, hb⟩
  · rw [hrun] at hstop; exact absurd hstop (by decide)
  · have hOut := Update_outcome rand fuel g w head tail _ _ hrun hb rfl rfl g1 w1 htick
    have hv : Vector2Equals (Vector2Add head g.snake.direction) g.food.position = true :=
      (Vector2Equals_iff _ _).2 ((EatsOnTick_iff g head tail hb).1 heat)
    have hnohit : ¬ (OnEdge (Vector2Add head g.snake.direction) ∨
        ElementInDeque (Vector2Add head g.snake.direction)
          (if g.snake.addSegment = true then head :: tail else (head :: tail).dropLast) = true) := by
      intro hhit
      have := (hOut.1 hhit).2.2.2.2.1
      rw [hover] at this; exact absurd this (by decide)
    obtain ⟨h1, _, _, h4, _⟩ := hOut.2 hnohit
    have hflag1 : g1.snake.addSegment = true := (h4 hv).2.1
    have hlen : g1.snake.body.length
        = g.snake.body.length + (if g.snake.addSegment = true then 1 else 0) := by
      rw [h1, hb]
      cases g.snake.addSegment <;> simp
    refine ⟨hlen, fun hf => by rw [hlen, hf]; simp, ?_⟩
    intro n g2 w2 hrunq
    have hq := QuietRun_length rand fuel n g1 w1 g2 w2 hrunq
    rcases Nat.eq_zero_or_pos n with hn | hn
    · rw [(hq.1 hn).1, hn]; simp
    · rw [(hq.2 hn).1, hflag1, if_neg (Nat.pos_iff_ne_zero.1 hn)]; simp

/-- Instance of C11 on the eat scenario: length 3 before and after the eat tick,
length 4 after each of the two following quiet ticks. -/
theorem growth_one_tick_after_eat_witness :
    scenarioGrowing.snake.body.length = scenarioEat.snake.body.length ∧
    (({ snake := { body := [⟨9, 9⟩, ⟨8, 9⟩, ⟨7, 9⟩, ⟨6, 9⟩], direction := ⟨1, 0⟩,
                   addSegment := false },
        food := { position := ⟨0, 0⟩ }, running := true, score := 1 } : Game).snake.body.length
      = scenarioGrowing.snake.body.length + (if 2 = 0 then 0 else 1)) :=
  ⟨(growth_one_tick_after_eat (fun _ => 0) 0 scenarioEat { cursor := 0, played := [] }
      scenarioGrowing { cursor := 2, played := [Sound.eatSound] } rfl
      ⟨{ body := [⟨7, 9⟩, ⟨6, 9⟩, ⟨5, 9⟩], direction := ⟨1, 0⟩, addSegment := false },
        by decide, by decide⟩
      (by decide) rfl).2.1 rfl,
   (growth_one_tick_after_eat (fun _ => 0) 0 scenarioEat { cursor := 0, played := [] }
      scenarioGrowing { cursor := 2, played := [Sound.eatSound] } rfl
      ⟨{ body := [⟨7, 9⟩, ⟨6, 9⟩, ⟨5, 9⟩], direction := ⟨1, 0⟩, addSegment := false },
        by decide, by decide⟩
      (by decide) rfl).2.2 2 _ _
      (QuietRun.tick 1 _ _
        { snake := { body := [⟨8, 9⟩, ⟨7, 9⟩, ⟨6, 9⟩, ⟨5, 9⟩], direction := ⟨1, 0⟩,
                     addSegment := false },
          food := { position := ⟨0, 0⟩ }, running := true, score := 1 }
        { cursor := 2, played := [Sound.eatSound] } _ _
        ⟨rfl, fun h => absurd ((EatsOnTick_iff _ ⟨7, 9⟩ [⟨6, 9⟩, ⟨5, 9⟩] rfl).1 h) (by decide),
          by decide, rfl⟩
        (QuietRun.tick 0 _ _
          { snake := { body := [⟨9, 9⟩, ⟨8, 9⟩, ⟨7, 9⟩, ⟨6, 9⟩], direction := ⟨1, 0⟩,
                       addSegment := false },
            food := { position := ⟨0, 0⟩ }, running := true, score := 1 }
          { cursor := 2, played := [Sound.eatSound] } _ _
          ⟨rfl,
            fun h => absurd ((EatsOnTick_iff _ ⟨8, 9⟩ [⟨7, 9⟩, ⟨6, 9⟩, ⟨5, 9⟩] rfl).1 h)
              (by decide),
            by decide, rfl⟩
          (QuietRun.done _ _)))⟩

/-- Counterexample to C11 as stated: the eat tick of the eat scenario returns
without `GameOver`, and the body has length 3 before it and 3 after it. -/
theorem eat_tick_keeps_length :
    scenarioEat.running = true ∧
    scenarioEat.snake.Update
      = some { body := [⟨7, 9⟩, ⟨6, 9⟩, ⟨5, 9⟩], direction := ⟨1, 0⟩, addSegment := false } ∧
    (⟨7, 9⟩ : Vector2) = scenarioEat.food.position ∧
    Game.Update (fun _ => 0) 0 scenarioEat { cursor := 0, played := [] }
      = some (scenarioGrowing, { cursor := 2, played := [Sound.eatSound] }) ∧
    scenarioGrowing.running = true ∧
    scenarioEat.snake.body.length = 3 ∧ scenarioGrowing.snake.body.length = 3 ∧
    scenarioGrowing.snake.body.length ≠ scenarioEat.snake.body.length + 1 := by
  decide

/-- C12, as it holds on the code: on a tick of a running game whose growth flag is
clear and whose advanced head is not on the food, every returned state without
`GameOver` has the old body shifted by one cell (head + direction, then the old body
without its last cell) and the old length; and the tick returns that state whenever
the advanced head hits neither an edge coordinate nor the shifted body. -/
theorem Update_no_growth (rand : Nat → Nat) (fuel : Nat) (g : Game) (w : World)
    (head : Vector2) (tail : List Vector2)
    (hrun : g.running = true) (hb : g.snake.body = head :: tail)
    (hflag : g.snake.addSegment = false)
    (hnoeat : Vector2Add head g.snake.direction ≠ g.food.position) :
    (∀ g2 w2, Game.Update rand fuel g w = some (g2, w2) → g2.running = true →
      g2.snake.body = Vector2Add head g.snake.direction :: (head :: tail).dropLast ∧
      g2.snake.body.length = g.snake.body.length) ∧
    (¬ OnEdge (Vector2Add head g.snake.direction) →
      Vector2Add head g.snake.direction ∉ (head :: tail).dropLast →
      Game.Update rand fuel g w
        = some ({ g with snake :=
                    { body := Vector2Add head g.snake.direction :: (head :: tail).dropLast,
                      direction := g.snake.direction, addSegment := false } }, w)) := by
  have hrest : (head :: tail).dropLast
      = if g.snake.addSegment = true then head :: tail else (head :: tail).dropLast := by
    rw [hflag]; simp
  have hne : Vector2Equals (Vector2Add head g.snake.direction) g.food.position = false := by
    cases hv : Vector2Equals (Vector2Add head g.snake.direction) g.food.position with
    | false => rfl
    | true => exact absurd ((Vector2Equals_iff _ _).1 hv) hnoeat
  refine ⟨?_, ?_⟩
  · intro g2 w2 htick hrun2
    have hOut := Update_outcome rand fuel g w head tail _ _ hrun hb rfl hrest g2 w2 htick
    by_cases hhit : OnEdge (Vector2Add head g.snake.direction) ∨
        ElementInDeque (Vector2Add head g.snake.direction) (head :: tail).dropLast = true
    · have := (hOut.1 hhit).2.2.2.2.1
      rw [hrun2] at this; exact absurd this (by decide)
    · obtain ⟨h1, _⟩ := hOut.2 hhit
      refine ⟨h1, ?_⟩
      rw [h1, hb]; simp
  · intro hnoedge hnotail
    rw [Update_running_eq rand fuel g w head tail _ _ hrun hb rfl hrest]
    have hnohit : ¬ (OnEdge (Vector2Add head g.snake.direction) ∨
        ElementInDeque (Vector2Add head g.snake.direction) (head :: tail).dropLast = true) := by
      rintro (he | ht)
      · exact hnoedge he
      · exact hnotail ((ElementInDeque_iff_mem _ _).1 ht)
    simp only [hne, Bool.false_eq_true, if_false, if_neg hnohit]

/-- Instance of C12: the initial snake with food at (0,0) moves from
`[(6,9),(5,9),(4,9)]` to `[(7,9),(6,9),(5,9)]`. -/
theorem Update_no_growth_witness :
    Game.Update (fun _ => 0) 0 scenarioStart { cursor := 2, played := [] }
      = some ({ scenarioStart with snake :=
                  { body := Vector2Add ⟨6, 9⟩ scenarioStart.snake.direction ::
                      ([⟨6, 9⟩, ⟨5, 9⟩, ⟨4, 9⟩] : List Vector2).dropLast,
                    direction := scenarioStart.snake.direction, addSegment := false } },
              { cursor := 2, played := [] }) :=
  (Update_no_growth (fun _ => 0) 0 scenarioStart { cursor := 2, played := [] }
    ⟨6, 9⟩ [⟨5, 9⟩, ⟨4, 9⟩] rfl rfl rfl (by decide)).2 (by decide) (by decide)

/-- Counterexample to C12 as stated: one tick after an eat the growth flag is set;
the tick neither eats (advanced head (8,9), food (0,0)) nor ends the game, and the
body goes from length 3 to length 4, the old body kept whole behind the new head. -/
theorem quiet_tick_with_pending_growth :
    scenarioGrowing.running = true ∧
    Vector2Add ⟨7, 9⟩ scenarioGrowing.snake.direction ≠ scenarioGrowing.food.position ∧
    Game.Update (fun _ => 0) 0 scenarioGrowing { cursor := 2, played := [Sound.eatSound] }
      = some ({ snake := { body := [⟨8, 9⟩, ⟨7, 9⟩, ⟨6, 9⟩, ⟨5, 9⟩], direction := ⟨1, 0⟩,
                           addSegment := false },
                food := { position := ⟨0, 0⟩ }, running := true, score := 1 },
              { cursor := 2, played := [Sound.eatSound] }) ∧
    scenarioGrowing.snake.body.length = 3 ∧
    ([⟨8, 9⟩, ⟨7, 9⟩, ⟨6, 9⟩, ⟨5, 9⟩] : List Vector2).length = 4 ∧
    ([⟨8, 9⟩, ⟨7, 9⟩, ⟨6, 9⟩, ⟨5, 9⟩] : List Vector2)
      ≠ ⟨8, 9⟩ :: scenarioGrowing.snake.body.dropLast := by
  decide

/-! ## Reset -/

/-- Counterexample to C13 as stated: on a snake with a growth pending,
`Snake::Reset` restores body and direction but leaves the growth flag set, so the
result differs from a freshly created snake, whose flag is clear. -/
theorem Reset_keeps_growth_flag :
    Snake.Reset scenarioGrowing.snake
      = { body := [⟨6, 9⟩, ⟨5, 9⟩, ⟨4, 9⟩], direction := ⟨1, 0⟩, addSegment := true } ∧
    (Snake.Reset scenarioGrowing.snake).addSegment = true ∧
    Snake.new.addSegment = false ∧
    Snake.Reset scenarioGrowing.snake ≠ Snake.new := by
  decide

/-! ## Reversal through two input frames -/

/-- C15: from the constructed game (heading right, neck at (5,9)), the frames Up
and then Left are both accepted and leave the direction `(-1,0)`; the next tick
moves the head onto the neck cell (5,9) and ends the game. -/
theorem reversal_by_two_frames :
    Game.new (fun _ => 0) 0 { cursor := 0, played := [] }
      = some (scenarioStart, { cursor := 2, played := [] }) ∧
    scenarioStart.running = true ∧
    scenarioStart.snake.body = [⟨6, 9⟩, ⟨5, 9⟩, ⟨4, 9⟩] ∧
    scenarioStart.snake.direction = ⟨6 - 5, 9 - 9⟩ ∧
    (keyboardFrames [{ up := true, down := false, left := false, right := false },
                     { up := false, down := false, left := true, right := false }]
        scenarioStart).snake.direction = ⟨-1, 0⟩ ∧
    (keyboardFrames [{ up := true, down := false, left := false, right := false },
                     { up := false, down := false, left := true, right := false }]
        scenarioStart).snake.Update
      = some { body := [⟨5, 9⟩, ⟨6, 9⟩, ⟨5, 9⟩], direction := ⟨-1, 0⟩, addSegment := false } ∧
    Game.Update (fun _ => 0) 0
        (keyboardFrames [{ up := true, down := false, left := false, right := false },
                         { up := false, down := false, left := true, right := false }]
          scenarioStart)
        { cursor := 2, played := [] }
      = some ({ snake := Snake.new, food := { position := ⟨0, 0⟩ }, running := false,
                score := 0 },
              { cursor := 4, played := [Sound.wallSound] }) := by
  decide

/-! ## Invariants of reachable states -/

theorem Adjacent_advance (head d : Vector2) (hd : UnitVector d) :
    Adjacent (Vector2Add head d) head := by
  rcases hd with rfl | rfl | rfl | rfl <;> simp [Adjacent, Vector2Add]

theorem BodyShape_initial (s : Snake) (hb : s.body = Snake.initialBody)
    (hd : s.direction = ⟨1, 0⟩) (food : Food) (run : Bool) (sc : Int) :
    BodyShape { snake := s, food := food, running := run, score := sc } := by
  refine ⟨?_, ?_, ?_⟩
  · simp [hb, Snake.initialBody]
  · simp [hd, UnitVector]
  · simp [hb, Snake.initialBody, Adjacent]

theorem BodyShape_frame (keys : Keys) (g : Game) (h : BodyShape g) :
    BodyShape (keyboardControls keys g) := by
  obtain ⟨h1, h2, h3⟩ := h
  unfold keyboardControls
  split_ifs
  · exact ⟨h1, Or.inr (Or.inr (Or.inr rfl)), h3⟩
  · exact ⟨h1, Or.inr (Or.inr (Or.inl rfl)), h3⟩
  · exact ⟨h1, Or.inr (Or.inl rfl), h3⟩
  · exact ⟨h1, Or.inl rfl, h3⟩
  · exact ⟨h1, h2, h3⟩

theorem BodyShape_tick (rand : Nat → Nat) (fuel : Nat) (g : Game) (w : World)
    (g2 : Game) (w2 : World) (h : BodyShape g)
    (htick : Game.Update rand fuel g w = some (g2, w2)) : BodyShape g2 := by
  rcases Update_cases rand fuel g w g2 w2 htick with ⟨_, hg, _⟩ | ⟨hrun, head, tail, hb⟩
  · rw [hg]; exact h
  · obtain ⟨_, hunit, hchain⟩ := h
    have hOut := Update_outcome rand fuel g w head tail _ _ hrun hb rfl rfl g2 w2 htick
    by_cases hhit : OnEdge (Vector2Add head g.snake.direction) ∨
        ElementInDeque (Vector2Add head g.snake.direction)
          (if g.snake.addSegment = true then head :: tail else (head :: tail).dropLast) = true
    · obtain ⟨h1, h2, _⟩ := hOut.1 hhit
      obtain ⟨s2, f2, r2, sc2⟩ := g2
      exact BodyShape_initial s2 h1 h2 f2 r2 sc2
    · obtain ⟨h1, h2, _⟩ := hOut.2 hhit
      refine ⟨by rw [h1]; exact List.cons_ne_nil _ _, by rw [h2]; exact hunit, ?_⟩
      rw [h1, List.chain'_cons']
      rw [hb] at hchain
      constructor
      · intro y hy
        have hyh : y = head := by
          split at hy
          · simpa using hy.symm
          · cases tail with
            | nil => simp at hy
            | cons t ts => simpa [List.dropLast] using hy.symm
        rw [hyh]
        exact Adjacent_advance head g.snake.direction hunit
      · split
        · exact hchain
        · exact hchain.prefix (List.dropLast_prefix _)

theorem BodyShape_start (rand : Nat → Nat) (fuel : Nat) (w0 : World) (g : Game) (w : World)
    (h : Game.new rand fuel w0 = some (g, w)) : BodyShape g := by
  unfold Game.new at h
  cases hgen : Food.GenerateRandomPosition rand fuel Snake.new.body w0 with
  | none => simp [hgen] at h
  | some r =>
    obtain ⟨p, w1⟩ := r
    simp only [hgen, Option.some.injEq, Prod.mk.injEq] at h
    rw [← h.1]
    exact BodyShape_initial Snake.new rfl rfl _ _ _

/-- C16: in every state reachable from the constructed game by ticks and input
frames in any interleaving, the body is non-empty, the direction is one of the four
unit vectors, and any two consecutive body cells are at Manhattan distance 1. -/
theorem Reachable_bodyShape (rand : Nat → Nat) (fuel : Nat) (g : Game) (w : World)
    (h : Reachable rand fuel g w) :
    g.snake.body ≠ [] ∧
    (g.snake.direction = ⟨1, 0⟩ ∨ g.snake.direction = ⟨-1, 0⟩ ∨
      g.snake.direction = ⟨0, 1⟩ ∨ g.snake.direction = ⟨0, -1⟩) ∧
    g.snake.body.Chain' (fun p q => |p.x - q.x| + |p.y - q.y| = 1) := by
  have hshape : BodyShape g := by
    induction h with
    | start w0 g w hnew => exact BodyShape_start rand fuel w0 g w hnew
    | tick g w g2 w2 _ htick ih => exact BodyShape_tick rand fuel g w g2 w2 ih htick
    | frame g w keys _ ih => exact BodyShape_frame keys g ih
  exact hshape

/-- The grown snake of the eat scenario is reachable: construction with food at
(7,9), the eat tick, and the tick on which the body grows. -/
theorem scenarioGrown_reachable :
    Reachable sampleStream 0 scenarioGrown { cursor := 4, played := [Sound.eatSound] } :=
  Reachable.tick scenarioGrowing { cursor := 4, played := [Sound.eatSound] } _ _
    (Reachable.tick scenarioEat { cursor := 2, played := [] } _ _
      (Reachable.start { cursor := 0, played := [] } _ _ (by decide))
      (by decide))
    (by decide)

/-- Instance of C16 on the grown snake of the eat scenario, one tick after its
growth tick. -/
theorem Reachable_bodyShape_witness :
    scenarioGrown.snake.body ≠ [] ∧
    (scenarioGrown.snake.direction = ⟨1, 0⟩ ∨ scenarioGrown.snake.direction = ⟨-1, 0⟩ ∨
      scenarioGrown.snake.direction = ⟨0, 1⟩ ∨ scenarioGrown.snake.direction = ⟨0, -1⟩) ∧
    scenarioGrown.snake.body.Chain' (fun p q => |p.x - q.x| + |p.y - q.y| = 1) :=
  Reachable_bodyShape sampleStream 0 scenarioGrown { cursor := 4, played := [Sound.eatSound] }
    scenarioGrown_reachable

theorem playedSince_append (w w2 : World) (evs : List Sound)
    (h : w2.played = w.played ++ evs) : playedSince w w2 = evs := by
  simp [playedSince, h]

theorem FoodOff_frame (keys : Keys) (g : Game) (h : FoodOff g) :
    FoodOff (keyboardControls keys g) := by
  obtain ⟨hbody, _, hfood, _⟩ := keyboardControls_keeps keys g
  unfold FoodOff
  rw [hbody, hfood]
  exact h

theorem FoodOff_start (rand : Nat → Nat) (fuel : Nat) (w0 : World) (g : Game) (w : World)
    (h : Game.new rand fuel w0 = some (g, w)) :
    FoodOff g ∧ ScoreCounts g ∧ g.score = 0 ∧ g.snake.addSegment = false := by
  unfold Game.new at h
  cases hgen : Food.GenerateRandomPosition rand fuel Snake.new.body w0 with
  | none => simp [hgen] at h
  | some r =>
    obtain ⟨p, w1⟩ := r
    obtain ⟨hfree, hgrid, _, _⟩ := GenerateRandomPosition_post _ _ _ _ _ _ hgen
    simp only [hgen, Option.some.injEq, Prod.mk.injEq] at h
    rw [← h.1]
    refine ⟨⟨hgrid, (ElementInDeque_eq_false_iff _ _).1 hfree⟩, ?_, rfl, rfl⟩
    simp [ScoreCounts, Snake.new, Snake.initialBody]

theorem FoodOff_tick (rand : Nat → Nat) (fuel : Nat) (g : Game) (w : World)
    (g2 : Game) (w2 : World) (h : FoodOff g)
    (htick : Game.Update rand fuel g w = some (g2, w2)) : FoodOff g2 := by
  rcases Update_cases rand fuel g w g2 w2 htick with ⟨_, hg, _⟩ | ⟨hrun, head, tail, hb⟩
  · rw [hg]; exact h
  · obtain ⟨hgrid, hoff⟩ := h
    have hOut := Update_outcome rand fuel g w head tail _ _ hrun hb rfl rfl g2 w2 htick
    by_cases hhit : OnEdge (Vector2Add head g.snake.direction) ∨
        ElementInDeque (Vector2Add head g.snake.direction)
          (if g.snake.addSegment = true then head :: tail else (head :: tail).dropLast) = true
    · obtain ⟨h1, _, _, _, _, h6, h7, _⟩ := hOut.1 hhit
      refine ⟨h7, ?_⟩
      rw [h1]; exact (ElementInDeque_eq_false_iff _ _).1 h6
    · obtain ⟨h1, _, _, h4, h5⟩ := hOut.2 hhit
      cases hv : Vector2Equals (Vector2Add head g.snake.direction) g.food.position with
      | true =>
        obtain ⟨_, _, h7, h8, _⟩ := h4 hv
        refine ⟨h8, ?_⟩
        rw [h1]; exact (ElementInDeque_eq_false_iff _ _).1 h7
      | false =>
        obtain ⟨_, _, h7, _⟩ := h5 hv
        rw [FoodOff, h7, h1]
        refine ⟨hgrid, ?_⟩
        intro hmem
        rcases List.mem_cons.1 hmem with heq | hrest
        · have := (Vector2Equals_iff (Vector2Add head g.snake.direction) g.food.position).2 heq.symm
          rw [hv] at this; exact absurd this (by decide)
        · apply hoff
          rw [hb]
          split at hrest
          · exact hrest
          · exact List.mem_of_mem_dropLast hrest

/-- C17: in every state reachable from the constructed game by ticks and input
frames in any interleaving, the food lies inside the grid and on no cell of the
snake body. -/
theorem Reachable_foodOff (rand : Nat → Nat) (fuel : Nat) (g : Game) (w : World)
    (h : Reachable rand fuel g w) :
    (0 ≤ g.food.position.x ∧ g.food.position.x ≤ 24 ∧
      0 ≤ g.food.position.y ∧ g.food.position.y ≤ 24) ∧
    ∀ c ∈ g.snake.body, g.food.position ≠ c := by
  have hoff : FoodOff g := by
    induction h with
    | start w0 g w hnew => exact (FoodOff_start rand fuel w0 g w hnew).1
    | tick g w g2 w2 _ htick ih => exact FoodOff_tick rand fuel g w g2 w2 ih htick
    | frame g w keys _ ih => exact FoodOff_frame keys g ih
  obtain ⟨hgrid, hnot⟩ := hoff
  refine ⟨?_, fun c hc heq => hnot (heq ▸ hc)⟩
  simpa [InGrid, cellCount] using hgrid

/-- Instance of C17 on the grown snake of the eat scenario: the food (0,0) is
inside the grid and differs from the head (8,9). -/
theorem Reachable_foodOff_witness :
    (0 ≤ scenarioGrown.food.position.x ∧ scenarioGrown.food.position.x ≤ 24 ∧
      0 ≤ scenarioGrown.food.position.y ∧ scenarioGrown.food.position.y ≤ 24) ∧
    scenarioGrown.food.position ≠ ⟨8, 9⟩ :=
  ⟨(Reachable_foodOff sampleStream 0 scenarioGrown { cursor := 4, played := [Sound.eatSound] }
      scenarioGrown_reachable).1,
   (Reachable_foodOff sampleStream 0 scenarioGrown { cursor := 4, played := [Sound.eatSound] }
      scenarioGrown_reachable).2 ⟨8, 9⟩ (by decide)⟩

/-- One tick from a state with food off the body keeps the count of growth, keeps
the score non-negative, and leaves the growth flag clear when it ends the game. -/
theorem ScoreCounts_tick (rand : Nat → Nat) (fuel : Nat) (g : Game) (w : World)
    (g2 : Game) (w2 : World) (hoff : FoodOff g) (hcount : ScoreCounts g)
    (hscore : 0 ≤ g.score) (htick : Game.Update rand fuel g w = some (g2, w2)) :
    ScoreCounts g2 ∧ 0 ≤ g2.score ∧
      (g.running = true → g2.running = false → g2.snake.addSegment = false) ∧
      (Sound.wallSound ∈ playedSince w w2 → g2.snake.addSegment = false) := by
  rcases Update_cases rand fuel g w g2 w2 htick with ⟨hstop, hg, hw⟩ | ⟨hrun, head, tail, hb⟩
  · rw [hg, hw]
    refine ⟨hcount, hscore, fun hr => ?_, fun hm => ?_⟩
    · rw [hstop] at hr; exact absurd hr (by decide)
    · simp [playedSince] at hm
  · have hOut := Update_outcome rand fuel g w head tail _ _ hrun hb rfl rfl g2 w2 htick
    unfold ScoreCounts at hcount ⊢
    rw [hb] at hcount
    by_cases hhit : OnEdge (Vector2Add head g.snake.direction) ∨
        ElementInDeque (Vector2Add head g.snake.direction)
          (if g.snake.addSegment = true then head :: tail else (head :: tail).dropLast) = true
    · obtain ⟨h1, _, h3, h4, _, _, _, _⟩ := hOut.1 hhit
      have hne : Vector2Equals (Vector2Add head g.snake.direction) g.food.position = false := by
        cases hv : Vector2Equals (Vector2Add head g.snake.direction) g.food.position with
        | false => rfl
        | true =>
          exact absurd hhit
            (eat_excludes_hit g head tail hb hoff.1 hoff.2 ((Vector2Equals_iff _ _).1 hv))
      rw [hne] at h3
      refine ⟨?_, by rw [h4], fun _ _ => h3, fun _ => h3⟩
      rw [h1, h3, h4]
      simp [Snake.initialBody]
    · obtain ⟨h1, _, h3, h4, h5⟩ := hOut.2 hhit
      have hlen : (g2.snake.body.length : Int)
          = ((head :: tail).length : Int) + (if g.snake.addSegment = true then 1 else 0) := by
        rw [h1]
        cases g.snake.addSegment <;> simp
      cases hv : Vector2Equals (Vector2Add head g.snake.direction) g.food.position with
      | true =>
        obtain ⟨h6, h7, _, _, h9⟩ := h4 hv
        refine ⟨?_, by rw [h6]; omega, fun _ hr => ?_, fun hm => ?_⟩
        · rw [hlen, h7, h6]
          simp only [if_true]
          omega
        · rw [h3] at hr; exact absurd hr (by decide)
        · rw [playedSince_append w w2 _ h9] at hm
          simp at hm
      | false =>
        obtain ⟨h6, h7, _, h9⟩ := h5 hv
        refine ⟨?_, by rw [h6]; exact hscore, fun _ hr => ?_, fun hm => ?_⟩
        · rw [hlen, h7, h6]
          simp only [Bool.false_eq_true, if_false]
          omega
        · rw [h3] at hr; exact absurd hr (by decide)
        · rw [h9] at hm
          simp [playedSince] at hm

/-- C19: in every state reachable from the constructed game by ticks and input
frames in any interleaving, body length plus one for a pending growth equals
3 + score, and the score is not negative; and whenever a tick from such a state ends
the game, the growth flag is clear in the state it returns. -/
theorem Reachable_scoreCounts (rand : Nat → Nat) (fuel : Nat) (g : Game) (w : World)
    (h : Reachable rand fuel g w) :
    (g.snake.body.length : Int) + (if g.snake.addSegment = true then 1 else 0) = 3 + g.score ∧
    0 ≤ g.score ∧
    (∀ g2 w2, Game.Update rand fuel g w = some (g2, w2) →
      (g.running = true → g2.running = false → g2.snake.addSegment = false) ∧
      (Sound.wallSound ∈ playedSince w w2 → g2.snake.addSegment = false)) := by
  have hinv : FoodOff g ∧ ScoreCounts g ∧ 0 ≤ g.score := by
    induction h with
    | start w0 g w hnew =>
      obtain ⟨h1, h2, h3, _⟩ := FoodOff_start rand fuel w0 g w hnew
      exact ⟨h1, h2, by rw [h3]⟩
    | tick g w g2 w2 _ htick ih =>
      obtain ⟨h1, h2, h3⟩ := ih
      obtain ⟨h4, h5, _⟩ := ScoreCounts_tick rand fuel g w g2 w2 h1 h2 h3 htick
      exact ⟨FoodOff_tick rand fuel g w g2 w2 h1 htick, h4, h5⟩
    | frame g w keys _ ih =>
      obtain ⟨h1, h2, h3⟩ := ih
      obtain ⟨hbody, hflag, _, hsc⟩ := keyboardControls_keeps keys g
      refine ⟨FoodOff_frame keys g h1, ?_, by rw [hsc]; exact h3⟩
      unfold ScoreCounts at h2 ⊢
      rw [hbody, hflag, hsc]; exact h2
  obtain ⟨h1, h2, h3⟩ := hinv
  refine ⟨h2, h3, fun g2 w2 htick => ?_⟩
  exact (ScoreCounts_tick rand fuel g w g2 w2 h1 h2 h3 htick).2.2

/-- Instance of C19 on the eat scenario one tick after the eat: length 3, growth
pending, score 1. -/
theorem Reachable_scoreCounts_witness :
    (scenarioGrowing.snake.body.length : Int)
        + (if scenarioGrowing.snake.addSegment = true then 1 else 0)
      = 3 + scenarioGrowing.score ∧
    0 ≤ scenarioGrowing.score :=
  ⟨(Reachable_scoreCounts sampleStream 0 scenarioGrowing
      { cursor := 4, played := [Sound.eatSound] }
      (Reachable.tick scenarioEat { cursor := 2, played := [] } _ _
        (Reachable.start { cursor := 0, played := [] } _ _ (by decide)) (by decide))).1,
   (Reachable_scoreCounts sampleStream 0 scenarioGrowing
      { cursor := 4, played := [Sound.eatSound] }
      (Reachable.tick scenarioEat { cursor := 2, played := [] } _ _
        (Reachable.start { cursor := 0, played := [] } _ _ (by decide)) (by decide))).2.1⟩

/-! ## The snake stays inside the grid -/

/-- C20: from a state whose body cells all lie in `[0,24] x [0,24]` and whose
direction is a unit vector, every returned tick leaves all body cells in
`[0,24] x [0,24]`: an advanced head with a coordinate -1 or 25 gives way to the
reset body within the tick.  A tick of a running game with a body returns when the
generator is productive for the bodies it has to avoid. -/
theorem Update_stays_in_grid (rand : Nat → Nat) (fuel : Nat) (g : Game) (w : World)
    (hgrid : ∀ c ∈ g.snake.body, 0 ≤ c.x ∧ c.x ≤ 24 ∧ 0 ≤ c.y ∧ c.y ≤ 24)
    (hunit : g.snake.direction = ⟨1, 0⟩ ∨ g.snake.direction = ⟨-1, 0⟩ ∨
      g.snake.direction = ⟨0, 1⟩ ∨ g.snake.direction = ⟨0, -1⟩) :
    (∀ g2 w2, Game.Update rand fuel g w = some (g2, w2) →
      ∀ c ∈ g2.snake.body, 0 ≤ c.x ∧ c.x ≤ 24 ∧ 0 ≤ c.y ∧ c.y ≤ 24) ∧
    (g.running = true → g.snake.body ≠ [] → Productive rand fuel Snake.initialBody →
      (∀ s1, g.snake.Update = some s1 → Productive rand fuel s1.body) →
      ∃ r, Game.Update rand fuel g w = some r) := by
  refine ⟨?_, ?_⟩
  · intro g2 w2 htick
    rcases Update_cases rand fuel g w g2 w2 htick with ⟨_, hg, _⟩ | ⟨hrun, head, tail, hb⟩
    · rw [hg]; exact hgrid
    · have hOut := Update_outcome rand fuel g w head tail _ _ hrun hb rfl rfl g2 w2 htick
      by_cases hhit : OnEdge (Vector2Add head g.snake.direction) ∨
          ElementInDeque (Vector2Add head g.snake.direction)
            (if g.snake.addSegment = true then head :: tail else (head :: tail).dropLast) = true
      · obtain ⟨h1, _⟩ := hOut.1 hhit
        rw [h1]
        intro c hc
        simp only [Snake.initialBody, List.mem_cons, List.mem_singleton, List.mem_nil_iff,
          or_false] at hc
        rcases hc with rfl | rfl | rfl <;> decide
      · obtain ⟨h1, _⟩ := hOut.2 hhit
        rw [h1]
        intro c hc
        rcases List.mem_cons.1 hc with rfl | hrest
        · have hhead := hgrid head (by rw [hb]; exact List.mem_cons_self _ _)
          have hnoedge : ¬ OnEdge (Vector2Add head g.snake.direction) := fun he => hhit (Or.inl he)
          unfold OnEdge at hnoedge
          simp only [cellCount] at hnoedge
          rcases hunit with hd | hd | hd | hd <;> rw [hd] at hnoedge ⊢ <;>
            simp only [Vector2Add] at hnoedge ⊢ <;> omega
        · apply hgrid
          rw [hb]
          split at hrest
          · exact hrest
          · exact List.mem_of_mem_dropLast hrest
  · intro hrun hne hinit hfood
    cases hbody : g.snake.body with
    | nil => exact absurd hbody hne
    | cons head tail =>
      exact Update_returns rand fuel g w head tail hrun hbody hinit (fun _ => hfood)

/-- Instance of C20 on the edge scenario: the advanced head (25,9) gives way to
the reset body, whose head (6,9) is inside the grid. -/
theorem Update_stays_in_grid_witness :
    Game.Update (fun _ => 0) 0 scenarioEdge { cursor := 0, played := [] }
      = some ({ snake := Snake.new, food := { position := ⟨0, 0⟩ }, running := false,
                score := 0 },
              { cursor := 2, played := [Sound.wallSound] }) ∧
    (0 ≤ (⟨6, 9⟩ : Vector2).x ∧ (⟨6, 9⟩ : Vector2).x ≤ 24 ∧
      0 ≤ (⟨6, 9⟩ : Vector2).y ∧ (⟨6, 9⟩ : Vector2).y ≤ 24) :=
  ⟨by decide,
   (Update_stays_in_grid (fun _ => 0) 0 scenarioEdge { cursor := 0, played := [] }
      (by decide) (by decide)).1
      { snake := Snake.new, food := { position := ⟨0, 0⟩ }, running := false, score := 0 }
      { cursor := 2, played := [Sound.wallSound] } (by decide) ⟨6, 9⟩ (by decide)⟩

/-! ## Eating and dying -/

theorem CheckCollisionWithTail_eq (rand : Nat → Nat) (fuel : Nat) (g1 : Game) (w1 : World)
    (nh : Vector2) (rest : List Vector2) (hb : g1.snake.body = nh :: rest) :
    Game.CheckCollisionWithTail rand fuel g1 w1
      = if ElementInDeque nh rest = true then Game.GameOver rand fuel g1 w1
        else some (g1, w1) := by
  simp only [Game.CheckCollisionWithTail, hb]

theorem CheckCollisionWithFood_eq (rand : Nat → Nat) (fuel : Nat) (g1 : Game) (w1 : World)
    (nh : Vector2) (rest : List Vector2) (hb : g1.snake.body = nh :: rest) :
    Game.CheckCollisionWithFood rand fuel g1 w1
      = if Vector2Equals nh g1.food.position = true then
          match Food.GenerateRandomPosition rand fuel (nh :: rest) w1 with
          | none => none
          | some (p, w2) =>
            some ({ g1 with food := { position := p },
                            snake := { g1.snake with addSegment := true },
                            score := g1.score + 1 },
              PlaySound Sound.eatSound w2)
        else some (g1, w1) := by
  simp only [Game.CheckCollisionWithFood, hb]

/-- A state returned by `GameOver` passes each of the three checks untouched. -/
theorem reset_passes (rand : Nat → Nat) (fuel : Nat) (g0 : Game) (w0 : World)
    (g2 : Game) (w2 : World) (h : Game.GameOver rand fuel g0 w0 = some (g2, w2)) :
    Game.CheckCollisionWithEdges rand fuel g2 w2 = some (g2, w2) ∧
    Game.CheckCollisionWithTail rand fuel g2 w2 = some (g2, w2) ∧
    Game.CheckCollisionWithFood rand fuel g2 w2 = some (g2, w2) := by
  obtain ⟨h1, _, _, _, _, h6, _⟩ := GameOver_post _ _ _ _ _ _ h
  have hb : g2.snake.body = ⟨6, 9⟩ :: [⟨5, 9⟩, ⟨4, 9⟩] := h1
  have hne : Vector2Equals ⟨6, 9⟩ g2.food.position = false := by
    cases hv : Vector2Equals ⟨6, 9⟩ g2.food.position with
    | false => rfl
    | true =>
      have heq := (Vector2Equals_iff _ _).1 hv
      rw [← heq] at h6
      exact absurd h6 (by decide)
  refine ⟨?_, ?_, ?_⟩
  · simp [Game.CheckCollisionWithEdges, hb, cellCount]
  · rw [CheckCollisionWithTail_eq rand fuel g2 w2 _ _ hb]
    simp [ElementInDeque, Vector2Equals]
  · rw [CheckCollisionWithFood_eq rand fuel g2 w2 _ _ hb]
    simp [hne]

theorem CheckCollisionWithEdges_eq (rand : Nat → Nat) (fuel : Nat) (g1 : Game) (w1 : World)
    (nh : Vector2) (rest : List Vector2) (hb : g1.snake.body = nh :: rest) :
    Game.CheckCollisionWithEdges rand fuel g1 w1
      = if OnEdge nh then Game.GameOver rand fuel g1 w1 else some (g1, w1) := by
  by_cases hx : nh.x = cellCount ∨ nh.x = -1
  · have hedge : OnEdge nh := by unfold OnEdge; tauto
    rw [if_pos hedge]
    unfold Game.CheckCollisionWithEdges
    simp only [hb, if_pos hx]
    cases hgo : Game.GameOver rand fuel g1 w1 with
    | none => rfl
    | some r =>
      obtain ⟨g2, w2⟩ := r
      have hb2 : g2.snake.body = ⟨6, 9⟩ :: [⟨5, 9⟩, ⟨4, 9⟩] := (GameOver_post _ _ _ _ _ _ hgo).1
      simp [hb2, cellCount]
  · unfold Game.CheckCollisionWithEdges
    simp only [hb, if_neg hx]
    by_cases hy : nh.y = cellCount ∨ nh.y = -1
    · have hedge : OnEdge nh := by unfold OnEdge; tauto
      rw [if_pos hedge, if_pos hy]
    · have hedge : ¬ OnEdge nh := by unfold OnEdge; tauto
      rw [if_neg hedge, if_neg hy]

theorem GameOver_then_food (rand : Nat → Nat) (fuel : Nat) (g0 : Game) (w0 : World) :
    (match Game.GameOver rand fuel g0 w0 with
      | none => none
      | some (g2, w2) => Game.CheckCollisionWithFood rand fuel g2 w2)
      = Game.GameOver rand fuel g0 w0 := by
  cases hgo : Game.GameOver rand fuel g0 w0 with
  | none => rfl
  | some r =>
    obtain ⟨g2, w2⟩ := r
    exact (reset_passes rand fuel g0 w0 g2 w2 hgo).2.2

theorem GameOver_then_tail_food (rand : Nat → Nat) (fuel : Nat) (g0 : Game) (w0 : World) :
    (match Game.GameOver rand fuel g0 w0 with
      | none => none
      | some (g1, w1) =>
        match Game.CheckCollisionWithTail rand fuel g1 w1 with
        | none => none
        | some (g2, w2) => Game.CheckCollisionWithFood rand fuel g2 w2)
      = Game.GameOver rand fuel g0 w0 := by
  cases hgo : Game.GameOver rand fuel g0 w0 with
  | none => rfl
  | some r =>
    obtain ⟨g2, w2⟩ := r
    obtain ⟨_, h2, h3⟩ := reset_passes rand fuel g0 w0 g2 w2 hgo
    simp only [h2, h3]

theorem GameOver_then_food_tail (rand : Nat → Nat) (fuel : Nat) (g0 : Game) (w0 : World) :
    (match Game.GameOver rand fuel g0 w0 with
      | none => none
      | some (g1, w1) =>
        match Game.CheckCollisionWithFood rand fuel g1 w1 with
        | none => none
        | some (g2, w2) => Game.CheckCollisionWithTail rand fuel g2 w2)
      = Game.GameOver rand fuel g0 w0 := by
  cases hgo : Game.GameOver rand fuel g0 w0 with
  | none => rfl
  | some r =>
    obtain ⟨g2, w2⟩ := r
    obtain ⟨_, h2, h3⟩ := reset_passes rand fuel g0 w0 g2 w2 hgo
    simp only [h2, h3]

/-- With the food inside the grid and off the body, moving the food check between
the edge check and the tail check gives the same tick. -/
theorem UpdateFoodMiddle_eq (rand : Nat → Nat) (fuel : Nat) (g : Game) (w : World)
    (hrun : g.running = true) (hgrid : InGrid g.food.position)
    (hoff : g.food.position ∉ g.snake.body) :
    Game.UpdateFoodMiddle rand fuel g w = Game.Update rand fuel g w := by
  cases hbody : g.snake.body with
  | nil => simp [Game.Update, Game.UpdateFoodMiddle, hrun, Snake.Update, hbody]
  | cons head tail =>
    have hadv := Snake_Update_cons g.snake head tail hbody
    have hEq := Update_running_eq rand fuel g w head tail _ _ hrun hbody rfl rfl
    have hexcl := eat_excludes_hit g head tail hbody hgrid hoff
    generalize (if g.snake.addSegment = true then head :: tail else (head :: tail).dropLast)
      = rest at hadv hEq hexcl
    generalize Vector2Add head g.snake.direction = nh at hadv hEq hexcl
    have hexcl2 : Vector2Equals nh g.food.position = true →
        ¬ (OnEdge nh ∨ ElementInDeque nh rest = true) :=
      fun hv => hexcl ((Vector2Equals_iff _ _).1 hv)
    rw [hEq]
    unfold Game.UpdateFoodMiddle
    simp only [hrun, if_true, hadv]
    rw [CheckCollisionWithEdges_eq rand fuel _ _ nh rest rfl]
    by_cases hv : Vector2Equals nh g.food.position = true
    · have hnohit := hexcl2 hv
      have hedge : ¬ OnEdge nh := fun he => hnohit (Or.inl he)
      have ht : ¬ ElementInDeque nh rest = true := fun h => hnohit (Or.inr h)
      simp only [if_neg hedge, hv, if_true, if_neg hnohit]
      rw [CheckCollisionWithFood_eq rand fuel _ _ nh rest rfl]
      simp only [hv, if_true]
      cases hgen : Food.GenerateRandomPosition rand fuel (nh :: rest) w with
      | none => rfl
      | some r =>
        obtain ⟨p, w1⟩ := r
        simp only []
        rw [CheckCollisionWithTail_eq rand fuel _ _ nh rest rfl]
        simp only [if_neg ht]
    · have hne : Vector2Equals nh g.food.position = false := by simpa using hv
      simp only [hne, Bool.false_eq_true, if_false]
      by_cases hedge : OnEdge nh
      · simp only [if_pos hedge, if_pos (Or.inl hedge : OnEdge nh ∨ ElementInDeque nh rest = true)]
        exact GameOver_then_food_tail rand fuel _ _
      · simp only [if_neg hedge]
        rw [CheckCollisionWithFood_eq rand fuel _ _ nh rest rfl]
        simp only [hne, Bool.false_eq_true, if_false]
        rw [CheckCollisionWithTail_eq rand fuel _ _ nh rest rfl]
        by_cases ht : ElementInDeque nh rest = true
        · simp only [if_pos ht, if_pos (Or.inr ht : OnEdge nh ∨ ElementInDeque nh rest = true)]
        · have hnohit : ¬ (OnEdge nh ∨ ElementInDeque nh rest = true) := by
            rintro (he | h)
            · exact hedge he
            · exact ht h
          simp only [if_neg ht, if_neg hnohit]

/-- With the food inside the grid and off the body, moving the food check behind
the edge and tail checks gives the same tick. -/
theorem UpdateFoodLast_eq (rand : Nat → Nat) (fuel : Nat) (g : Game) (w : World)
    (hrun : g.running = true) (hgrid : InGrid g.food.position)
    (hoff : g.food.position ∉ g.snake.body) :
    Game.UpdateFoodLast rand fuel g w = Game.Update rand fuel g w := by
  cases hbody : g.snake.body with
  | nil => simp [Game.Update, Game.UpdateFoodLast, hrun, Snake.Update, hbody]
  | cons head tail =>
    have hadv := Snake_Update_cons g.snake head tail hbody
    have hEq := Update_running_eq rand fuel g w head tail _ _ hrun hbody rfl rfl
    have hexcl := eat_excludes_hit g head tail hbody hgrid hoff
    generalize (if g.snake.addSegment = true then head :: tail else (head :: tail).dropLast)
      = rest at hadv hEq hexcl
    generalize Vector2Add head g.snake.direction = nh at hadv hEq hexcl
    have hexcl2 : Vector2Equals nh g.food.position = true →
        ¬ (OnEdge nh ∨ ElementInDeque nh rest = true) :=
      fun hv => hexcl ((Vector2Equals_iff _ _).1 hv)
    rw [hEq]
    unfold Game.UpdateFoodLast
    simp only [hrun, if_true, hadv]
    rw [CheckCollisionWithEdges_eq rand fuel _ _ nh rest rfl]
    by_cases hv : Vector2Equals nh g.food.position = true
    · have hnohit := hexcl2 hv
      have hedge : ¬ OnEdge nh := fun he => hnohit (Or.inl he)
      have ht : ¬ ElementInDeque nh rest = true := fun h => hnohit (Or.inr h)
      simp only [if_neg hedge, hv, if_true, if_neg hnohit]
      rw [CheckCollisionWithTail_eq rand fuel _ _ nh rest rfl]
      simp only [if_neg ht]
      rw [CheckCollisionWithFood_eq rand fuel _ _ nh rest rfl]
      simp only [hv, if_true]
    · have hne : Vector2Equals nh g.food.position = false := by simpa using hv
      simp only [hne, Bool.false_eq_true, if_false]
      by_cases hedge : OnEdge nh
      · simp only [if_pos hedge, if_pos (Or.inl hedge : OnEdge nh ∨ ElementInDeque nh rest = true)]
        exact GameOver_then_tail_food rand fuel _ _
      · simp only [if_neg hedge]
        rw [CheckCollisionWithTail_eq rand fuel _ _ nh rest rfl]
        by_cases ht : ElementInDeque nh rest = true
        · simp only [if_pos ht, if_pos (Or.inr ht : OnEdge nh ∨ ElementInDeque nh rest = true)]
          exact GameOver_then_food rand fuel _ _
        · have hnohit : ¬ (OnEdge nh ∨ ElementInDeque nh rest = true) := by
            rintro (he | h)
            · exact hedge he
            · exact ht h
          simp only [if_neg ht, if_neg hnohit]
          rw [CheckCollisionWithFood_eq rand fuel _ _ nh rest rfl]
          simp only [hne, Bool.false_eq_true, if_false]

/-- C18: at a running game whose food is inside the grid and on no body cell, a
returned tick never plays both the eat sound (food branch taken) and the wall sound
(`GameOver` called); a head that reaches the food is on no edge coordinate and on no
other body cell; and the tick is the same wherever the food check stands among the
three checks.  The tick returns when the body is non-empty and the generator is
productive for the bodies it has to avoid. -/
theorem eat_excludes_GameOver (rand : Nat → Nat) (fuel : Nat) (g : Game) (w : World)
    (hrun : g.running = true) (hgrid : InGrid g.food.position)
    (hoff : g.food.position ∉ g.snake.body) :
    (∀ g2 w2, Game.Update rand fuel g w = some (g2, w2) →
      ¬ (Sound.eatSound ∈ playedSince w w2 ∧ Sound.wallSound ∈ playedSince w w2)) ∧
    (∀ head tail s1, g.snake.body = head :: tail → g.snake.Update = some s1 →
      Vector2Add head g.snake.direction = g.food.position →
      ¬ OnEdge (Vector2Add head g.snake.direction) ∧
      Vector2Add head g.snake.direction ∉ s1.body.tail) ∧
    Game.UpdateFoodMiddle rand fuel g w = Game.Update rand fuel g w ∧
    Game.UpdateFoodLast rand fuel g w = Game.Update rand fuel g w ∧
    (g.snake.body ≠ [] → Productive rand fuel Snake.initialBody →
      (∀ s1, g.snake.Update = some s1 → Productive rand fuel s1.body) →
      ∃ r, Game.Update rand fuel g w = some r) := by
  refine ⟨?_, ?_, UpdateFoodMiddle_eq rand fuel g w hrun hgrid hoff,
    UpdateFoodLast_eq rand fuel g w hrun hgrid hoff, ?_⟩
  · intro g2 w2 htick
    rcases Update_cases rand fuel g w g2 w2 htick with ⟨hstop, _, _⟩ | ⟨_, head, tail, hb⟩
    · rw [hrun] at hstop; exact absurd hstop (by decide)
    · have hOut := Update_outcome rand fuel g w head tail _ _ hrun hb rfl rfl g2 w2 htick
      have hexcl := eat_excludes_hit g head tail hb hgrid hoff
      by_cases hhit : OnEdge (Vector2Add head g.snake.direction) ∨
          ElementInDeque (Vector2Add head g.snake.direction)
            (if g.snake.addSegment = true then head :: tail else (head :: tail).dropLast) = true
      · have hne : Vector2Equals (Vector2Add head g.snake.direction) g.food.position = false := by
          cases hv : Vector2Equals (Vector2Add head g.snake.direction) g.food.position with
          | false => rfl
          | true => exact absurd hhit (hexcl ((Vector2Equals_iff _ _).1 hv))
        have h8 := (hOut.1 hhit).2.2.2.2.2.2.2
        rw [hne] at h8
        rw [playedSince_append w w2 _ h8]
        simp
      · obtain ⟨_, _, _, h4, h5⟩ := hOut.2 hhit
        cases hv : Vector2Equals (Vector2Add head g.snake.direction) g.food.position with
        | true =>
          rw [playedSince_append w w2 _ (h4 hv).2.2.2.2]
          simp
        | false =>
          rw [(h5 hv).2.2.2]
          simp [playedSince]
  · intro head tail s1 hb hadv heat
    have hexcl := eat_excludes_hit g head tail hb hgrid hoff heat
    have hadv2 := Snake_Update_cons g.snake head tail hb
    rw [hadv] at hadv2
    have hs1 := Option.some.inj hadv2
    refine ⟨fun he => hexcl (Or.inl he), fun hmem => hexcl (Or.inr ?_)⟩
    rw [hs1] at hmem
    exact (ElementInDeque_iff_mem _ _).2 hmem
  · intro hne hinit hfood
    cases hbody : g.snake.body with
    | nil => exact absurd hbody hne
    | cons head tail =>
      exact Update_returns rand fuel g w head tail hrun hbody hinit (fun _ => hfood)

/-- Instance of C18 on the eat scenario: the eat tick plays the eat sound only, and
the tick with the food check last returns the same state. -/
theorem eat_excludes_GameOver_witness :
    ¬ (Sound.eatSound ∈ playedSince { cursor := 0, played := [] }
          { cursor := 2, played := [Sound.eatSound] } ∧
        Sound.wallSound ∈ playedSince { cursor := 0, played := [] }
          { cursor := 2, played := [Sound.eatSound] }) ∧
    Game.UpdateFoodLast (fun _ => 0) 0 scenarioEat { cursor := 0, played := [] }
      = Game.Update (fun _ => 0) 0 scenarioEat { cursor := 0, played := [] } :=
  ⟨(eat_excludes_GameOver (fun _ => 0) 0 scenarioEat { cursor := 0, played := [] }
      rfl (by decide) (by decide)).1 scenarioGrowing
      { cursor := 2, played := [Sound.eatSound] } (by decide),
   (eat_excludes_GameOver (fun _ => 0) 0 scenarioEat { cursor := 0, played := [] }
      rfl (by decide) (by decide)).2.2.2.1⟩

/-! ## Termination of the food placement -/

theorem mem_gridCells (p : Vector2) : p ∈ gridCells ↔ InGrid p := by
  have h25 : cellCount.toNat = 25 := rfl
  obtain ⟨px, py⟩ := p
  simp only [gridCells, h25, List.mem_flatMap, List.mem_map, List.mem_range]
  constructor
  · rintro ⟨a, ha, b, hb, hab⟩
    have hx : (a : Int) = px := congrArg Vector2.x hab
    have hy : (b : Int) = py := congrArg Vector2.y hab
    simp only [InGrid, cellCount]
    omega
  · intro hp
    simp only [InGrid, cellCount] at hp
    refine ⟨px.toNat, by omega, py.toNat, by omega, ?_⟩
    have hx : ((px.toNat : Nat) : Int) = px := by omega
    have hy : ((py.toNat : Nat) : Int) = py := by omega
    rw [hx, hy]

theorem length_gridCells : gridCells.length = 625 := by
  have h25 : cellCount.toNat = 25 := rfl
  simp [gridCells, h25, List.length_flatMap, Function.comp_def]

theorem coveredCells_lt_iff (occ : List Vector2) :
    coveredCells occ < 625 ↔ ∃ p, InGrid p ∧ p ∉ occ := by
  unfold coveredCells
  rw [← length_gridCells, List.length_filter_lt_length_iff_exists]
  constructor
  · rintro ⟨p, hp, hnot⟩
    refine ⟨p, (mem_gridCells p).1 hp, fun hmem => hnot ?_⟩
    exact (ElementInDeque_iff_mem _ _).2 hmem
  · rintro ⟨p, hp, hnot⟩
    refine ⟨p, (mem_gridCells p).2 hp, fun hin => hnot ?_⟩
    exact (ElementInDeque_iff_mem _ _).1 hin

theorem coveredCells_eq_iff (occ : List Vector2) :
    coveredCells occ = 625 ↔ ∀ p, InGrid p → p ∈ occ := by
  unfold coveredCells
  rw [← length_gridCells, List.filter_length_eq_length]
  constructor
  · intro h p hp
    exact (ElementInDeque_iff_mem _ _).1 (h p ((mem_gridCells p).2 hp))
  · intro h p hp
    exact (ElementInDeque_iff_mem _ _).2 (h p ((mem_gridCells p).1 hp))

/-- A generator that delivers a given grid cell at a given cursor position. -/
theorem exists_stream_delivering (p : Vector2) (hp : InGrid p) (c : Nat) :
    ∃ rand : Nat → Nat, sampledCell rand c 0 = p := by
  obtain ⟨px, py⟩ := p
  simp only [InGrid, cellCount] at hp
  refine ⟨fun i => if i = c then px.toNat else py.toNat, ?_⟩
  simp only [sampledCell, Food.GenerateRandomCell, GetRandomValue, cellCount, Vector2.mk.injEq]
  norm_num
  omega

/-- C14: on a sample sequence, `GenerateRandomPosition` returns for some bound on
the re-draws (and then for every larger bound) exactly when the sequence delivers a
cell outside the occupied list; when the list covers fewer than
`cellCount * cellCount = 625` grid cells such sequences exist from every cursor
position; when it covers all 625 grid cells the loop returns on no sequence and for
no bound. -/
theorem GenerateRandomPosition_terminates (occupied : List Vector2) :
    cellCount * cellCount = 625 ∧
    (∀ (rand : Nat → Nat) (w : World),
      (∃ fuel r, Food.GenerateRandomPosition rand fuel occupied w = some r) ↔
        ∃ k, ElementInDeque (sampledCell rand w.cursor k) occupied = false) ∧
    (∀ (rand : Nat → Nat) (w : World),
      (∃ k, ElementInDeque (sampledCell rand w.cursor k) occupied = false) →
      ∃ fuel0, ∀ fuel, fuel0 ≤ fuel →
        ∃ r, Food.GenerateRandomPosition rand fuel occupied w = some r) ∧
    (coveredCells occupied < 625 →
      ∀ w : World, ∃ (rand : Nat → Nat) (r : Vector2 × World),
        Food.GenerateRandomPosition rand 0 occupied w = some r) ∧
    (coveredCells occupied = 625 →
      ∀ (rand : Nat → Nat) (fuel : Nat) (w : World),
        Food.GenerateRandomPosition rand fuel occupied w = none) := by
  refine ⟨rfl, ?_, ?_, ?_, ?_⟩
  · intro rand w
    constructor
    · rintro ⟨fuel, r, h⟩
      obtain ⟨k, _, hk⟩ := (GenerateRandomPosition_returns_iff rand fuel occupied w).1 ⟨r, h⟩
      exact ⟨k, hk⟩
    · rintro ⟨k, hk⟩
      obtain ⟨r, hr⟩ := (GenerateRandomPosition_returns_iff rand k occupied w).2 ⟨k, le_refl k, hk⟩
      exact ⟨k, r, hr⟩
  · rintro rand w ⟨k, hk⟩
    exact ⟨k, fun fuel hle =>
      (GenerateRandomPosition_returns_iff rand fuel occupied w).2 ⟨k, hle, hk⟩⟩
  · intro hlt w
    obtain ⟨p, hp, hnot⟩ := (coveredCells_lt_iff occupied).1 hlt
    obtain ⟨rand, hrand⟩ := exists_stream_delivering p hp w.cursor
    obtain ⟨r, hr⟩ := (GenerateRandomPosition_returns_iff rand 0 occupied w).2
      ⟨0, le_refl 0, by rw [hrand]; exact (ElementInDeque_eq_false_iff _ _).2 hnot⟩
    exact ⟨rand, r, hr⟩
  · intro hall rand fuel w
    have hcov := (coveredCells_eq_iff occupied).1 hall
    cases hgen : Food.GenerateRandomPosition rand fuel occupied w with
    | none => rfl
    | some r =>
      obtain ⟨k, _, hk⟩ := (GenerateRandomPosition_returns_iff rand fuel occupied w).1 ⟨r, hgen⟩
      have hmem := hcov _ (sampledCell_inGrid rand w.cursor k)
      rw [(ElementInDeque_iff_mem _ _).2 hmem] at hk
      exact absurd hk (by decide)

/-- Instance of C14: with the initial body occupied and the draws (6,9), (5,9),
(3,3), ... the loop returns for every bound of at least two re-draws; and with the
whole grid occupied it does not return. -/
theorem GenerateRandomPosition_terminates_witness :
    (∃ fuel0, ∀ fuel, fuel0 ≤ fuel →
      ∃ r, Food.GenerateRandomPosition (fun i => [6, 9, 5, 9, 3, 3].getD i 0) fuel
        Snake.initialBody { cursor := 0, played := [] } = some r) ∧
    Food.GenerateRandomPosition (fun i => [6, 9, 5, 9, 3, 3].getD i 0) 7 gridCells
      { cursor := 0, played := [] } = none :=
  ⟨(GenerateRandomPosition_terminates Snake.initialBody).2.2.1
      (fun i => [6, 9, 5, 9, 3, 3].getD i 0) { cursor := 0, played := [] } ⟨2, by decide⟩,
   (GenerateRandomPosition_terminates gridCells).2.2.2.2
      ((coveredCells_eq_iff gridCells).2 (fun p hp => (mem_gridCells p).2 hp))
      (fun i => [6, 9, 5, 9, 3, 3].getD i 0) 7 { cursor := 0, played := [] }⟩

/-! ## Reset, body and direction -/

/-- Reachable states keep the food off the body and the count of growth. -/
theorem Reachable_invariants (rand : Nat → Nat) (fuel : Nat) (g : Game) (w : World)
    (h : Reachable rand fuel g w) : FoodOff g ∧ ScoreCounts g ∧ 0 ≤ g.score := by
  induction h with
  | start w0 g w hnew =>
    obtain ⟨h1, h2, h3, _⟩ := FoodOff_start rand fuel w0 g w hnew
    exact ⟨h1, h2, by rw [h3]⟩
  | tick g w g2 w2 _ htick ih =>
    obtain ⟨h1, h2, h3⟩ := ih
    obtain ⟨h4, h5, _⟩ := ScoreCounts_tick rand fuel g w g2 w2 h1 h2 h3 htick
    exact ⟨FoodOff_tick rand fuel g w g2 w2 h1 htick, h4, h5⟩
  | frame g w keys _ ih =>
    obtain ⟨h1, h2, h3⟩ := ih
    obtain ⟨hbody, hflag, _, hsc⟩ := keyboardControls_keeps keys g
    refine ⟨FoodOff_frame keys g h1, ?_, by rw [hsc]; exact h3⟩
    unfold ScoreCounts at h2 ⊢
    rw [hbody, hflag, hsc]; exact h2

/-- C13, as it holds on the code: for every snake, `Snake::Reset` gives the body
`[(6,9),(5,9),(4,9)]` and the direction `(1,0)` of a freshly created snake and leaves
the growth flag as it was, so the result is a freshly created snake exactly when the
flag was clear; and it is clear at every reset the game performs: a tick that ends
the game from a reachable state returns a freshly created snake. -/
theorem Reset_restores_body_and_direction (s : Snake) :
    (Snake.Reset s).body = [⟨6, 9⟩, ⟨5, 9⟩, ⟨4, 9⟩] ∧
    (Snake.Reset s).direction = ⟨1, 0⟩ ∧
    (Snake.Reset s).body = Snake.new.body ∧
    (Snake.Reset s).direction = Snake.new.direction ∧
    (Snake.Reset s).addSegment = s.addSegment ∧
    (Snake.Reset s = Snake.new ↔ s.addSegment = false) ∧
    (∀ (rand : Nat → Nat) (fuel : Nat) (g : Game) (w : World) (g2 : Game) (w2 : World),
      Reachable rand fuel g w → g.running = true →
      Game.Update rand fuel g w = some (g2, w2) → g2.running = false →
      g2.snake = Snake.new) := by
  refine ⟨rfl, rfl, rfl, rfl, rfl, ?_, ?_⟩
  · obtain ⟨b, d, f⟩ := s
    cases f <;> simp [Snake.Reset, Snake.new]
  · intro rand fuel g w g2 w2 hreach hrun htick hstop
    obtain ⟨h1, h2, h3⟩ := Reachable_invariants rand fuel g w hreach
    have hflag := (ScoreCounts_tick rand fuel g w g2 w2 h1 h2 h3 htick).2.2.1 hrun hstop
    rcases Update_cases rand fuel g w g2 w2 htick with ⟨hs, _, _⟩ | ⟨_, head, tail, hb⟩
    · rw [hrun] at hs; exact absurd hs (by decide)
    · have hOut := Update_outcome rand fuel g w head tail _ _ hrun hb rfl rfl g2 w2 htick
      by_cases hhit : OnEdge (Vector2Add head g.snake.direction) ∨
          ElementInDeque (Vector2Add head g.snake.direction)
            (if g.snake.addSegment = true then head :: tail else (head :: tail).dropLast) = true
      · obtain ⟨hbody, hdir, _⟩ := hOut.1 hhit
        obtain ⟨⟨b2, d2, f2⟩, food2, run2, sc2⟩ := g2
        simp only at hbody hdir hflag
        simp only [Snake.new, Snake.mk.injEq]
        exact ⟨hbody, hdir, hflag⟩
      · have hr := (hOut.2 hhit).2.2.1
        rw [hstop] at hr; exact absurd hr (by decide)

/-- Instance of C13: a snake of four cells heading up with the flag clear is reset
to a freshly created snake; and the tick that ends the constructed game after the
frames Up and Left returns a freshly created snake. -/
theorem Reset_restores_body_and_direction_witness :
    Snake.Reset { body := [⟨3, 3⟩, ⟨3, 4⟩, ⟨3, 5⟩, ⟨3, 6⟩], direction := ⟨0, -1⟩,
                  addSegment := false } = Snake.new ∧
    ({ snake := Snake.new, food := { position := ⟨0, 0⟩ }, running := false,
       score := 0 } : Game).snake = Snake.new :=
  ⟨(Reset_restores_body_and_direction
      { body := [⟨3, 3⟩, ⟨3, 4⟩, ⟨3, 5⟩, ⟨3, 6⟩], direction := ⟨0, -1⟩,
        addSegment := false }).2.2.2.2.2.1.2 rfl,
   (Reset_restores_body_and_direction Snake.new).2.2.2.2.2.2 (fun _ => 0) 0
      (keyboardControls { up := false, down := false, left := true, right := false }
        (keyboardControls { up := true, down := false, left := false, right := false }
          scenarioStart))
      { cursor := 2, played := [] }
      { snake := Snake.new, food := { position := ⟨0, 0⟩ }, running := false, score := 0 }
      { cursor := 4, played := [Sound.wallSound] }
      (Reachable.frame _ _ _
        (Reachable.frame _ _ _
          (Reachable.start { cursor := 0, played := [] } scenarioStart
            { cursor := 2, played := [] } (by decide))))
      (by decide) (by decide) rfl⟩

end RetroSnake
